import Mathlib

/-!
Shallow embedding of the yt-analysis-mcp screenshot-extraction core
(`src/validators.ts`, `src/screenshot-extractor.ts`, `src/gemini-client.ts`)
together with proofs about the embedded operations.

Conventions used throughout:
* JS strings are modelled by `String` / `List Char`; numbers by `Nat`
  (timestamps), `ℚ` (quality) and `ℤ` (the transcoder quality value).
* Fallible code returns `Except`/`Option`; external processes (yt-dlp,
  ffmpeg, the filesystem) are passed in as explicit oracles/parameters.
* WHATWG `new URL` is modelled for the fragment of inputs that pass the
  repository's URL regex: a fixed `http(s)://` scheme, an authority that
  runs to the first `/ \ ? #`, path splitting on `/` and `\` with
  normalisation of the plain `.` and `..` segments (the percent-encoded
  dot forms of the full standard are not modelled), search params split
  on `&` with `+`/percent decoding of keys and values (single-byte
  decoding; multi-byte UTF-8 sequences are not reassembled).
-/

namespace YT

/-! ## Character classes and low-level list utilities -/

/-- The JS regex class `[\w-]`: ASCII letters, digits, `_` and `-`. -/
def wordDashChar (c : Char) : Bool :=
  c.isAlphanum || c = '_' || c = '-'

/-- JS whitespace as used by `String.prototype.trim` (ASCII part). -/
def isJsWs (c : Char) : Bool :=
  c = ' ' || c = '\t' || c = '\n' || c = '\r' || c = '\x0b' || c = '\x0c'

/-- Drop leading whitespace characters. -/
def dropWs : List Char → List Char
  | [] => []
  | c :: t => if isJsWs c then dropWs t else c :: t

/-- Model of `String.prototype.trim` (restricted to ASCII whitespace). -/
def jsTrimL (l : List Char) : List Char :=
  ((dropWs ((dropWs l).reverse)).reverse)

/-- If `p` is a leading run of `l`, return the remainder of `l`. -/
def dropLead : List Char → List Char → Option (List Char)
  | [], l => some l
  | _ :: _, [] => none
  | p :: ps, c :: cs => if c = p then dropLead ps cs else none

/-- Whether `p` occurs at the start of `l` (model of JS `startsWith`). -/
def leadsWith (p l : List Char) : Bool :=
  (dropLead p l).isSome

/-- Split `l` at the first character belonging to `stops`, keeping the
stop character on the right. -/
def spanUntil (stops : List Char) : List Char → List Char × List Char
  | [] => ([], [])
  | c :: cs =>
    if c ∈ stops then ([], c :: cs)
    else
      let p := spanUntil stops cs
      (c :: p.1, p.2)

/-- Split on any separator in `seps`, keeping empty pieces
(model of JS `String.prototype.split`). -/
def splitOnAny (seps : List Char) : List Char → List (List Char)
  | [] => [[]]
  | c :: cs =>
    let r := splitOnAny seps cs
    if c ∈ seps then [] :: r
    else
      match r with
      | [] => [[c]]
      | h :: t => (c :: h) :: t

/-- Value of a hex digit. -/
def hexVal (c : Char) : Option Nat :=
  if '0' ≤ c ∧ c ≤ '9' then some (c.toNat - '0'.toNat)
  else if 'a' ≤ c ∧ c ≤ 'f' then some (c.toNat - 'a'.toNat + 10)
  else if 'A' ≤ c ∧ c ≤ 'F' then some (c.toNat - 'A'.toNat + 10)
  else none

/-- Form-urlencoded decoding as done by `URLSearchParams`: `+` becomes a
space and `%XY` becomes the byte `0xXY` (single-byte model). -/
def pctDecodeL : List Char → List Char
  | [] => []
  | c :: rest =>
    if c = '+' then ' ' :: pctDecodeL rest
    else if c = '%' then
      match rest with
      | a :: b :: rest2 =>
        (match hexVal a, hexVal b with
         | some x, some y => Char.ofNat (16 * x + y) :: pctDecodeL rest2
         | _, _ => c :: pctDecodeL (a :: b :: rest2))
      | [a] => c :: pctDecodeL [a]
      | [] => [c]
    else c :: pctDecodeL rest
termination_by l => l.length
decreasing_by all_goals (simp only [List.length_cons]; omega)

/-- Substring test, model of JS `String.prototype.includes`. -/
def includesSub (needle : List Char) : List Char → Bool
  | [] => (dropLead needle ([] : List Char)).isSome
  | c :: t => (dropLead needle (c :: t)).isSome || includesSub needle t

/-! ## Model of WHATWG URL parsing for regex-accepted inputs -/

/-- The components of a parsed URL that `extractVideoId` consumes. -/
structure UrlParts where
  hostname : List Char
  pathname : List Char
  search : List Char
deriving Repr, DecidableEq

/-- Strip `https://` or `http://`; other schemes are not produced by
inputs that pass the repository's URL regex. -/
def stripScheme (l : List Char) : Option (List Char) :=
  match dropLead "https://".data l with
  | some r => some r
  | none => dropLead "http://".data l

/-- WHATWG path normalisation for `.` and `..` segments. -/
def normSegs (stack : List (List Char)) : List (List Char) → List (List Char)
  | [] => stack
  | seg :: rest =>
    if seg = ['.', '.'] then
      if rest = [] then stack.dropLast ++ [[]] else normSegs stack.dropLast rest
    else if seg = ['.'] then
      if rest = [] then stack ++ [[]] else normSegs stack rest
    else normSegs (stack ++ [seg]) rest

/-- Serialise path segments back into a pathname. -/
def serializeSegs (segs : List (List Char)) : List Char :=
  match segs with
  | [] => ['/']
  | _ => segs.foldl (fun acc s => acc ++ '/' :: s) []

/-- Parse scheme-stripped input into hostname, pathname and search. -/
def parseAfterScheme (l : List Char) : UrlParts :=
  let a := spanUntil ['/', '\\', '?', '#'] l
  let hostname := a.1.map Char.toLower
  let p := spanUntil ['?', '#'] a.2
  let search :=
    match p.2 with
    | '?' :: q => (spanUntil ['#'] q).1
    | _ => []
  let segs :=
    match splitOnAny ['/', '\\'] p.1 with
    | [] => []
    | _ :: t => t
  { hostname := hostname, pathname := serializeSegs (normSegs [] segs), search := search }

/-- Model of `new URL(...)` on regex-accepted strings. -/
def parseUrl (l : List Char) : Option UrlParts :=
  (stripScheme l).map parseAfterScheme

/-- First match of `key` among the `&`-separated search params
(model of `URLSearchParams.get`). -/
def getSearchParam (key : List Char) : List (List Char) → Option (List Char)
  | [] => none
  | piece :: rest =>
    if piece = [] then getSearchParam key rest
    else
      let kv := spanUntil ['='] piece
      let v := match kv.2 with
               | [] => []
               | _ :: tl => tl
      if pctDecodeL kv.1 = key then some (pctDecodeL v) else getSearchParam key rest

/-! ## Model of `src/validators.ts` -/

/-- The twelve concrete alternatives denoted by
`^https?:\/\/(?:www\.)?(?:youtube\.com\/(?:watch\?v=|shorts\/)|youtu\.be\/)`. -/
def regexCores : List String :=
  [ "https://youtube.com/watch?v=", "https://youtube.com/shorts/", "https://youtu.be/",
    "https://www.youtube.com/watch?v=", "https://www.youtube.com/shorts/", "https://www.youtu.be/",
    "http://youtube.com/watch?v=", "http://youtube.com/shorts/", "http://youtu.be/",
    "http://www.youtube.com/watch?v=", "http://www.youtube.com/shorts/", "http://www.youtu.be/" ]

/-- Model of `YOUTUBE_URL_REGEX.test`: one of the cores occurs at the
start, followed by at least one `[\w-]` character. -/
def youtubeUrlRegexTest (l : List Char) : Bool :=
  regexCores.any fun p =>
    match dropLead p.data l with
    | some (c :: _) => wordDashChar c
    | _ => false

/-- Error outcomes of `extractVideoId`: the zod refinement failure
(`ValidationError`) versus the final generic `Error`. -/
inductive VidError where
  | validation (message : String)
  | cannotExtract (message : String)
deriving Repr, DecidableEq

/-- The message attached to `YouTubeUrlSchema`'s refinement. -/
def invalidUrlMessage : String :=
  "Invalid YouTube URL. Expected format: youtube.com/watch?v=ID, youtu.be/ID, or youtube.com/shorts/ID"

/-- The hostname/pathname dissection of `extractVideoId` applied to the
parsed URL (`t` is the trimmed input, used in the error message). -/
def vidFromUrl (t : List Char) (u : UrlParts) : Except VidError (List Char) :=
  if u.hostname = "youtu.be".data then .ok (u.pathname.drop 1)
  else if u.hostname = "www.youtube.com".data ∨ u.hostname = "youtube.com".data then
    match (if u.pathname = "/watch".data then
             match getSearchParam "v".data (splitOnAny ['&'] u.search) with
             | some v => if v = [] then none else some v
             | none => none
           else none) with
    | some v => .ok v
    | none =>
      if leadsWith "/shorts/".data u.pathname then
        .ok ((splitOnAny ['/'] u.pathname).getD 2 [])
      else .error (.cannotExtract ("Cannot extract video ID from: " ++ String.mk t))
  else .error (.cannotExtract ("Cannot extract video ID from: " ++ String.mk t))

/-- Core of `extractVideoId` on the already-trimmed character list:
regex validation, URL parsing, dissection. -/
def extractVideoIdCore (t : List Char) : Except VidError (List Char) :=
  if youtubeUrlRegexTest t then
    match parseUrl t with
    | none => .error (.cannotExtract ("Cannot extract video ID from: " ++ String.mk t))
    | some u => vidFromUrl t u
  else .error (.validation invalidUrlMessage)

/-- `extractVideoId` on the raw character list: trim (as
`z.string().trim()` does), then run the core. -/
def extractVideoIdL (l : List Char) : Except VidError (List Char) :=
  extractVideoIdCore (jsTrimL l)

/-- Model of `extractVideoId` from `src/validators.ts`: validate against
the URL regex (on the trimmed string, as `z.string().trim().refine`
does), then dissect the URL exactly as the source does. -/
def extractVideoId (url : String) : Except VidError String :=
  (extractVideoIdL url.data).map String.mk

/-! ## Model of `src/screenshot-extractor.ts` -/

/-- The `Resolution` enum of `src/validators.ts`. -/
inductive Resolution where
  | thumbnail | small | medium | large | full
deriving Repr, DecidableEq

/-- The `RESOLUTION_MAP` table (`null` becomes `none`). -/
def RESOLUTION_MAP : Resolution → Option Nat
  | .thumbnail => some 160
  | .small => some 360
  | .medium => some 720
  | .large => some 1080
  | .full => none

/-- `const targetHeight = RESOLUTION_MAP[resolution] ?? 1080` in
`extractFrame`: the height used for yt-dlp format selection. -/
def targetHeight (r : Resolution) : Nat :=
  (RESOLUTION_MAP r).getD 1080

/-- The `-f` format selector passed to yt-dlp by `extractFrame`. -/
def ytdlpFormat (r : Resolution) : String :=
  "bestvideo[height<=" ++ toString (targetHeight r) ++ "]/best[height<="
    ++ toString (targetHeight r) ++ "]"

/-- The full shell command `extractFrame` runs to resolve the stream URL. -/
def ytdlpStreamCmd (ytdlpPath : String) (r : Resolution) (youtubeUrl : String) : String :=
  ytdlpPath ++ " -f \"" ++ ytdlpFormat r ++ "\" -g \"" ++ youtubeUrl
    ++ "\" 2>/dev/null | head -1"

/-- JS `Math.round`: round half toward positive infinity. -/
def jsRound (x : ℚ) : ℤ := ⌊x + 1 / 2⌋

/-- The quality translation
`Math.max(2, Math.min(31, Math.round((100 - quality) / 3.33)))` of
`extractFrame`. The literal `3.33` is modelled as the rational
`333/100`; for the integer inputs 1–100 the double-precision value of
`3.33` rounds to the same results. -/
def ffmpegQuality (quality : ℚ) : ℤ :=
  max 2 (min 31 (jsRound ((100 - quality) / (333 / 100))))

/-- The argument vector `extractFrame` assembles for ffmpeg, including
the conditional `-vf scale=-1:h` filter. -/
def ffmpegCmdArgs (ffmpegPath : String) (timestampSeconds : Nat) (videoStreamUrl : String)
    (quality : ℚ) (resolution : Resolution) (outputPath : String) : List String :=
  let cmd := [ffmpegPath, "-ss", toString timestampSeconds, "-i", videoStreamUrl,
              "-vframes", "1", "-q:v", toString (ffmpegQuality quality)]
  let cmd :=
    match RESOLUTION_MAP resolution with
    | some h => cmd ++ ["-vf", "scale=-1:" ++ toString h]
    | none => cmd
  cmd ++ ["-y", outputPath]

/-- The mutable instance fields `ytdlpPath` / `ffmpegPath` of
`ScreenshotExtractor`. -/
structure ExtractorState where
  ytdlpPath : Option String := none
  ffmpegPath : Option String := none
deriving Repr, DecidableEq

/-- Outcome of the two `which` lookups: `some stdout` on success,
`none` when the executable is missing. -/
structure ProbeEnv where
  ytdlp : Option String
  ffmpeg : Option String
deriving Repr, DecidableEq

/-- String-level JS `trim` (applied to `which` stdout). -/
def jsTrimS (s : String) : String := String.mk (jsTrimL s.data)

/-- Message format of `DependencyError`. -/
def depErrorMessage (dependency installHint : String) : String :=
  "Missing required dependency: " ++ dependency ++ ". " ++ installHint

/-- Model of `checkDependencies`: runs `which yt-dlp` and then
`which ffmpeg`, storing the trimmed paths. Returns the error message of
a thrown `DependencyError` (if any), the updated instance state, and
the number of probes (`which` invocations) performed. -/
def checkDependencies (pe : ProbeEnv) (s : ExtractorState) :
    Option String × ExtractorState × Nat :=
  match pe.ytdlp with
  | none =>
    (some (depErrorMessage "yt-dlp"
        "Install via: brew install yt-dlp (macOS) or pip install yt-dlp"), s, 1)
  | some y =>
    let s1 : ExtractorState := { s with ytdlpPath := some (jsTrimS y) }
    match pe.ffmpeg with
    | none =>
      (some (depErrorMessage "ffmpeg"
          "Install via: brew install ffmpeg (macOS) or apt install ffmpeg (Linux)"), s1, 2)
    | some f => (none, { s1 with ffmpegPath := some (jsTrimS f) }, 2)

/-- The dependency step at the top of `extractFrame`:
`if (!this.ytdlpPath || !this.ffmpegPath) await this.checkDependencies()`. -/
def extractFrameDeps (pe : ProbeEnv) (s : ExtractorState) :
    Option String × ExtractorState × Nat :=
  if s.ytdlpPath.isNone || s.ffmpegPath.isNone then checkDependencies pe s
  else (none, s, 0)

/-- The `TimestampCandidate` shape consumed by `extractScreenshots`. -/
structure TimestampCandidate where
  time_seconds : Nat
  time_formatted : String
  description : String
deriving Repr, DecidableEq

/-- The `Screenshot` result interface. -/
structure Screenshot where
  timestamp_seconds : Nat
  timestamp_formatted : String
  description : String
  base64 : String
  mimeType : String
  filePath : Option String
deriving Repr, DecidableEq

/-- The `ExtractOptions` bag (`quality` in 1–100, all fields optional). -/
structure ExtractOptions where
  outputDir : Option String := none
  quality : Option ℚ := none
  resolution : Option Resolution := none
deriving Repr, DecidableEq

/-- Batch-level failures of `extractScreenshots`. -/
inductive BatchError where
  | dependency (message : String)
  | badUrl (e : VidError)
  | extraction (message : String)
deriving Repr, DecidableEq

/-- Filesystem side effects performed by `extractScreenshots`. -/
inductive FsOp where
  | mkdtemp (dir : String)
  | mkdirp (dir : String)
  | writeFile (path : String)
  | unlink (path : String)
  | rmrf (dir : String)
deriving Repr, DecidableEq

/-- The abstract filesystem contents used to replay an `FsOp` log. -/
structure FsState where
  dirs : List String
  files : List String
deriving Repr, DecidableEq

/-- Whether `p` lies strictly under directory `d`. -/
def underDir (d p : String) : Bool :=
  leadsWith (d ++ "/").data p.data

/-- Replay a single filesystem operation. -/
def applyOp (st : FsState) : FsOp → FsState
  | .mkdtemp d => { st with dirs := st.dirs ++ [d] }
  | .mkdirp d => { st with dirs := if d ∈ st.dirs then st.dirs else st.dirs ++ [d] }
  | .writeFile p => { st with files := st.files ++ [p] }
  | .unlink p => { st with files := st.files.filter (fun q => q ≠ p) }
  | .rmrf d =>
    { dirs := st.dirs.filter (fun x => x ≠ d && !underDir d x),
      files := st.files.filter (fun q => !underDir d q) }

/-- Replay a whole operation log against an empty filesystem. -/
def replayOps (ops : List FsOp) : FsState :=
  ops.foldl applyOp { dirs := [], files := [] }

/-- JS truthiness of an optional string (`undefined` and `""` are falsy). -/
def jsTruthy (o : Option String) : Option String :=
  match o with
  | some s => if s = "" then none else some s
  | none => none

/-- JS `a || b` on optional strings. -/
def jsOrStr (a b : Option String) : Option String :=
  match jsTruthy a with
  | some s => some s
  | none => jsTruthy b

/-- `path.join(outputDir, filename)` for the plain case of a
separator-free basename. -/
def joinPath (dir file : String) : String := dir ++ "/" ++ file

/-- The template literal used for output filenames. -/
def shotFileName (videoId : String) (timeSeconds : Nat) : String :=
  videoId ++ "_" ++ toString timeSeconds ++ "s.jpg"

/-- Whether the per-item extraction of one timestamp succeeds under the
given extraction oracle. -/
def frameOk (frame : TimestampCandidate → Except String String)
    (ts : TimestampCandidate) : Bool :=
  match frame ts with
  | .ok _ => true
  | .error _ => false

/-- The failure line recorded for a failed timestamp. -/
def errorLine (frame : TimestampCandidate → Except String String)
    (ts : TimestampCandidate) : String :=
  "Timestamp " ++ ts.time_formatted ++ ": "
    ++ (match frame ts with | .error m => m | .ok _ => "")

/-- The Screenshot record pushed for a successful timestamp. -/
def shotOf (videoId : String) (userDir : Option String) (outputDir : String)
    (frame : TimestampCandidate → Except String String)
    (ts : TimestampCandidate) : Screenshot :=
  { timestamp_seconds := ts.time_seconds,
    timestamp_formatted := ts.time_formatted,
    description := ts.description,
    base64 := (match frame ts with | .ok b => b | .error _ => ""),
    mimeType := "image/jpeg",
    filePath :=
      match userDir with
      | some _ => some (joinPath outputDir (shotFileName videoId ts.time_seconds))
      | none => none }

/-- The per-timestamp loop of `extractScreenshots`: accumulates
successes, failure lines, and the file operations performed (write the
frame; unlink it right after reading when no durable directory is in
effect). The `frame` oracle abstracts one `extractFrame` +
`fs.readFile` + base64 encoding round (its `ok` value is the base64
payload, its `error` value the thrown error's message). -/
def batchLoop (videoId : String) (userDir : Option String) (outputDir : String)
    (frame : TimestampCandidate → Except String String) :
    List TimestampCandidate → List Screenshot × List String × List FsOp
  | [] => ([], [], [])
  | ts :: rest =>
    let fp := joinPath outputDir (shotFileName videoId ts.time_seconds)
    let r := batchLoop videoId userDir outputDir frame rest
    if frameOk frame ts then
      (shotOf videoId userDir outputDir frame ts :: r.1,
       r.2.1,
       (FsOp.writeFile fp :: (if userDir.isNone then [FsOp.unlink fp] else [])) ++ r.2.2)
    else (r.1, errorLine frame ts :: r.2.1, r.2.2)

/-- The full observable outcome of one `extractScreenshots` call. -/
structure BatchRun where
  result : Except BatchError (List Screenshot)
  state : ExtractorState
  probes : Nat
  ops : List FsOp
deriving Repr

/-- Model of `extractScreenshots`. Parameters supplied by the
environment: `pe` (the `which` lookups), `envOut`
(`process.env.SCREENSHOT_OUTPUT_DIR`), `tempDir` (the name
`fs.mkdtemp` would produce), and `frame` (the per-item extraction
oracle). Faithful to the source: dependencies are checked
unconditionally first, the video id is resolved once, the temp
directory is created unconditionally, the working directory is
`options.outputDir || env || tempDir`, the loop tolerates per-item
failures, the temp directory is removed only when no durable directory
was specified, and the call fails only when every item failed. -/
def extractScreenshotsM (pe : ProbeEnv) (envOut : Option String) (tempDir : String)
    (frame : TimestampCandidate → Except String String) (s : ExtractorState)
    (url : String) (timestamps : List TimestampCandidate)
    (opts : ExtractOptions) : BatchRun :=
  match checkDependencies pe s with
  | (some m, s1, n) => { result := .error (.dependency m), state := s1, probes := n, ops := [] }
  | (none, s1, n) =>
    match extractVideoId url with
    | .error e => { result := .error (.badUrl e), state := s1, probes := n, ops := [] }
    | .ok videoId =>
      let userDir := jsOrStr opts.outputDir envOut
      let outputDir := userDir.getD tempDir
      let r := batchLoop videoId userDir outputDir frame timestamps
      let ops := [FsOp.mkdtemp tempDir, FsOp.mkdirp outputDir] ++ r.2.2 ++
        (if userDir.isNone then [FsOp.rmrf tempDir] else [])
      if r.1.isEmpty && !r.2.1.isEmpty then
        { result := .error (.extraction
            ("All extractions failed:\n" ++ String.intercalate "\n" r.2.1)),
          state := s1, probes := n, ops := ops }
      else
        { result := .ok r.1, state := s1, probes := n, ops := ops }

/-- `padStart(2, "0")` as used for the seconds field. -/
def padStart2 (s : String) : String :=
  if s.length ≥ 2 then s else String.mk (List.replicate (2 - s.length) '0') ++ s

/-- The `M:SS` formatting of `extractFramesAtTimestamps`
(`Math.floor` is `Nat` division here). -/
def fmtMMSS (seconds : Nat) : String :=
  toString (seconds / 60) ++ ":" ++ padStart2 (toString (seconds % 60))

/-- The candidate synthesised for one bare second value. -/
def synthCandidate (seconds : Nat) : TimestampCandidate :=
  { time_seconds := seconds,
    time_formatted := fmtMMSS seconds,
    description := "Frame at " ++ fmtMMSS seconds }

/-- Model of `extractFramesAtTimestamps`: synthesise candidates from
bare seconds and delegate to `extractScreenshots`. -/
def extractFramesAtTimestampsM (pe : ProbeEnv) (envOut : Option String) (tempDir : String)
    (frame : TimestampCandidate → Except String String) (s : ExtractorState)
    (url : String) (timestampSeconds : List Nat) (opts : ExtractOptions) : BatchRun :=
  extractScreenshotsM pe envOut tempDir frame s url
    (timestampSeconds.map synthCandidate) opts

/-! ## Model of the error classifier in `src/gemini-client.ts` -/

/-- A thrown JS error, reduced to its class name and message. -/
structure ThrownError where
  name : String
  message : String
deriving Repr, DecidableEq

/-- Lower-casing per `String.prototype.toLowerCase` (ASCII model). -/
def strToLowerL (l : List Char) : List Char := l.map Char.toLower

/-- The error built by `new VideoAccessError(url)`. -/
def videoAccessErrorFor (url : String) : ThrownError :=
  { name := "VideoAccessError",
    message := "Cannot access video: " ++ url ++ ". Ensure video is public and not geo-restricted." }

/-- The fixed quota/rate-limit message. -/
def quotaMessage : String :=
  "API quota exceeded or rate limited. Please try again later."

/-- Model of the catch-block classifier of `GeminiVideoClient.analyze`
for errors that are not already `VideoAnalysisError`s: access keywords
first, then quota keywords, else the generic wrapper. -/
def classifyAnalyzeFailure (youtubeUrl message : String) : ThrownError :=
  if includesSub "video".data (strToLowerL message.data)
      || includesSub "file".data (strToLowerL message.data)
      || includesSub "access".data (strToLowerL message.data) then
    videoAccessErrorFor youtubeUrl
  else if includesSub "quota".data (strToLowerL message.data)
      || includesSub "rate".data (strToLowerL message.data) then
    { name := "VideoAnalysisError", message := quotaMessage }
  else
    { name := "VideoAnalysisError", message := "Failed to analyze video: " ++ message }

/-- The `instanceof VideoAnalysisError` test: `VideoAccessError extends
VideoAnalysisError`, so both class names satisfy it. -/
def isVideoAnalysisErrorName (n : String) : Bool :=
  n = "VideoAnalysisError" || n = "VideoAccessError"

/-! ## Helper lemmas about the low-level utilities -/

theorem data_append (a b : String) : (a ++ b).data = a.data ++ b.data := by
  cases a
  cases b
  rfl

theorem mk_data (s : String) : String.mk s.data = s := by
  cases s
  rfl

theorem dropLead_pref (p r : List Char) : dropLead p (p ++ r) = some r := by
  induction p with
  | nil => rfl
  | cons c cs ih => simp [dropLead, ih]

theorem dropWs_eq_self {l : List Char} (h : ∀ c ∈ l, isJsWs c = false) :
    dropWs l = l := by
  cases l with
  | nil => rfl
  | cons c t => simp [dropWs, h c (by simp)]

theorem jsTrimL_eq_self {l : List Char} (h : ∀ c ∈ l, isJsWs c = false) :
    jsTrimL l = l := by
  unfold jsTrimL
  rw [dropWs_eq_self h, dropWs_eq_self (fun c hc => h c (List.mem_reverse.mp hc)),
    List.reverse_reverse]

theorem spanUntil_cons_keep {stops : List Char} {c : Char} (r : List Char)
    (h : c ∉ stops) :
    spanUntil stops (c :: r) = (c :: (spanUntil stops r).1, (spanUntil stops r).2) := by
  simp [spanUntil, h]

theorem spanUntil_cons_stop {stops : List Char} {c : Char} (r : List Char)
    (h : c ∈ stops) : spanUntil stops (c :: r) = ([], c :: r) := by
  simp [spanUntil, h]

theorem spanUntil_all_keep {stops l : List Char} (h : ∀ c ∈ l, c ∉ stops) :
    spanUntil stops l = (l, []) := by
  induction l with
  | nil => rfl
  | cons c t ih =>
    rw [spanUntil_cons_keep t (h c (by simp)), ih (fun x hx => h x (by simp [hx]))]

theorem spanUntil_append_left {stops : List Char} (l r : List Char)
    (h : ∀ c ∈ l, c ∉ stops) :
    spanUntil stops (l ++ r) = (l ++ (spanUntil stops r).1, (spanUntil stops r).2) := by
  induction l with
  | nil => simp
  | cons c t ih =>
    rw [List.cons_append, spanUntil_cons_keep _ (h c (by simp)),
      ih (fun x hx => h x (by simp [hx]))]
    simp

theorem spanUntil_append_stop {stops : List Char} (l : List Char) {c : Char}
    (r : List Char) (h : ∀ x ∈ l, x ∉ stops) (hc : c ∈ stops) :
    spanUntil stops (l ++ c :: r) = (l, c :: r) := by
  rw [spanUntil_append_left l _ h, spanUntil_cons_stop r hc]
  simp

theorem splitOnAny_cons_sep {seps : List Char} {c : Char} (r : List Char)
    (h : c ∈ seps) : splitOnAny seps (c :: r) = [] :: splitOnAny seps r := by
  simp [splitOnAny, h]

theorem splitOnAny_ne_nil {seps : List Char} (l : List Char) :
    splitOnAny seps l ≠ [] := by
  cases l with
  | nil => simp [splitOnAny]
  | cons c t =>
    unfold splitOnAny
    by_cases hc : c ∈ seps
    · simp [hc]
    · simp only [if_neg hc]
      rcases hr : splitOnAny seps t with _ | ⟨h1, t1⟩ <;> simp

theorem splitOnAny_cons_keep {seps : List Char} {c : Char} (r : List Char)
    (h : c ∉ seps) :
    splitOnAny seps (c :: r) =
      match splitOnAny seps r with
      | [] => [[c]]
      | h1 :: t1 => (c :: h1) :: t1 := by
  simp [splitOnAny, h]

theorem splitOnAny_no_sep {seps l : List Char} (h : ∀ c ∈ l, c ∉ seps) :
    splitOnAny seps l = [l] := by
  induction l with
  | nil => rfl
  | cons c t ih =>
    rw [splitOnAny_cons_keep t (h c (by simp)), ih (fun x hx => h x (by simp [hx]))]

theorem splitOnAny_append_sep {seps : List Char} (l : List Char) {s : Char}
    (r : List Char) (h : ∀ c ∈ l, c ∉ seps) (hs : s ∈ seps) :
    splitOnAny seps (l ++ s :: r) = l :: splitOnAny seps r := by
  induction l with
  | nil => simpa using splitOnAny_cons_sep r hs
  | cons c t ih =>
    rw [List.cons_append, splitOnAny_cons_keep _ (h c (by simp)),
      ih (fun x hx => h x (by simp [hx]))]

theorem wordDash_ne {c : Char} (h : wordDashChar c = true) {d : Char}
    (hd : wordDashChar d = false) : c ≠ d := by
  intro e
  subst e
  rw [h] at hd
  cases hd

theorem wordDash_not_ws {c : Char} (h : wordDashChar c = true) : isJsWs c = false := by
  by_contra hw
  rw [Bool.not_eq_false] at hw
  simp only [isJsWs, Bool.or_eq_true, decide_eq_true_eq] at hw
  rcases hw with ((((rfl | rfl) | rfl) | rfl) | rfl) | rfl <;> exact absurd h (by decide)

theorem wordDash_all_notMem {l : List Char} (h : l.all wordDashChar = true)
    {stops : List Char} (hs : stops.all (fun d => !wordDashChar d) = true) :
    ∀ x ∈ l, x ∉ stops := by
  intro x hx hmem
  have hx2 := List.all_eq_true.mp h x hx
  have hd := List.all_eq_true.mp hs x hmem
  rw [hx2] at hd
  cases hd

theorem wordDash_all_not_ws {l : List Char} (h : l.all wordDashChar = true) :
    ∀ c ∈ l, isJsWs c = false :=
  fun c hc => wordDash_not_ws (List.all_eq_true.mp h c hc)

theorem pctDecodeL_nil : pctDecodeL [] = [] := by
  rw [pctDecodeL.eq_def]

theorem pctDecodeL_cons_plain {c : Char} (t : List Char) (h1 : c ≠ '+')
    (h2 : c ≠ '%') : pctDecodeL (c :: t) = c :: pctDecodeL t := by
  rw [pctDecodeL.eq_def]
  simp [h1, h2]

theorem pctDecodeL_wordDash {l : List Char} (h : l.all wordDashChar = true) :
    pctDecodeL l = l := by
  induction l with
  | nil => exact pctDecodeL_nil
  | cons c t ih =>
    have hc := List.all_eq_true.mp h c (by simp)
    have ht : t.all wordDashChar = true :=
      List.all_eq_true.mpr (fun x hx => List.all_eq_true.mp h x (by simp [hx]))
    rw [pctDecodeL_cons_plain t (wordDash_ne hc (by decide)) (wordDash_ne hc (by decide)),
      ih ht]

theorem normSegs_no_dots {segs : List (List Char)}
    (h : ∀ s ∈ segs, s ≠ ['.'] ∧ s ≠ ['.', '.']) :
    ∀ stack, normSegs stack segs = stack ++ segs := by
  induction segs with
  | nil => intro stack; simp [normSegs]
  | cons seg rest ih =>
    intro stack
    rw [normSegs, if_neg (by simpa using (h seg (by simp)).2),
      if_neg (by simpa using (h seg (by simp)).1),
      ih (fun s hs => h s (by simp [hs]))]
    simp

theorem filter_length_split {α : Type} (p : α → Bool) (l : List α) :
    (l.filter p).length + (l.filter (fun a => !p a)).length = l.length := by
  induction l with
  | nil => rfl
  | cons a t ih =>
    cases ha : p a <;> simp [List.filter_cons, ha] <;> omega

/-! ## Parsing lemmas for the three accepted URL shapes -/

theorem stripScheme_https (r : List Char) :
    stripScheme ("https://".data ++ r) = some r := by
  unfold stripScheme
  rw [dropLead_pref]

theorem parseAfterScheme_short (id qs : List Char)
    (hidw : id.all wordDashChar = true)
    (hqs : qs = [] ∨ ∃ t, qs = '?' :: t) :
    ∃ srch, parseAfterScheme ("youtu.be/".data ++ (id ++ qs)) =
      { hostname := "youtu.be".data, pathname := '/' :: id, search := srch } := by
  have ha : spanUntil ['/', '\\', '?', '#'] ("youtu.be/".data ++ (id ++ qs)) =
      ("youtu.be".data, '/' :: (id ++ qs)) := by
    rw [show "youtu.be/".data ++ (id ++ qs) = "youtu.be".data ++ '/' :: (id ++ qs) from rfl]
    exact spanUntil_append_stop _ _ (by decide) (by decide)
  have hid2 : ∀ x ∈ id, x ∉ (['?', '#'] : List Char) :=
    wordDash_all_notMem hidw (by decide)
  have hsegs : splitOnAny ['/', '\\'] ('/' :: id) = [[], id] := by
    rw [splitOnAny_cons_sep _ (by decide),
      splitOnAny_no_sep (wordDash_all_notMem hidw (by decide))]
  have hnorm : normSegs [] [id] = [id] := by
    have hne1 : id ≠ ['.'] := by
      intro e
      exact absurd (List.all_eq_true.mp hidw '.' (by rw [e]; simp)) (by decide)
    have hne2 : id ≠ ['.', '.'] := by
      intro e
      exact absurd (List.all_eq_true.mp hidw '.' (by rw [e]; simp)) (by decide)
    simpa using normSegs_no_dots (by simp [hne1, hne2]) []
  rcases hqs with rfl | ⟨t, rfl⟩
  · refine ⟨[], ?_⟩
    have h1 : spanUntil ['?', '#'] ('/' :: (id ++ [])) = ('/' :: id, []) := by
      rw [List.append_nil, spanUntil_cons_keep _ (by decide), spanUntil_all_keep hid2]
    simp only [parseAfterScheme, ha, h1, hsegs, hnorm]
    rfl
  · refine ⟨(spanUntil ['#'] t).1, ?_⟩
    have h1 : spanUntil ['?', '#'] ('/' :: (id ++ '?' :: t)) = ('/' :: id, '?' :: t) := by
      rw [spanUntil_cons_keep _ (by decide), spanUntil_append_left id _ hid2,
        spanUntil_cons_stop _ (by decide)]
      simp
    simp only [parseAfterScheme, ha, h1, hsegs, hnorm]
    rfl

theorem parseAfterScheme_watch (host id qs : List Char)
    (hh : ∀ c ∈ host, c ∉ (['/', '\\', '?', '#'] : List Char))
    (hidw : id.all wordDashChar = true)
    (hqs : qs = [] ∨ ∃ t, qs = '&' :: t) :
    ∃ qtail,
      parseAfterScheme (host ++ ('/' :: ("watch".data ++ '?' :: ('v' :: '=' :: (id ++ qs))))) =
        { hostname := host.map Char.toLower, pathname := "/watch".data,
          search := 'v' :: '=' :: (id ++ qtail) } ∧
      (qtail = [] ∨ ∃ T, qtail = '&' :: T) := by
  have hid2 : ∀ x ∈ id, x ∉ (['#'] : List Char) :=
    wordDash_all_notMem hidw (by decide)
  have hsegs : splitOnAny ['/', '\\'] ('/' :: "watch".data) = [[], "watch".data] := by
    decide
  have hnorm : normSegs [] ["watch".data] = ["watch".data] := by decide
  rcases hqs with rfl | ⟨t, rfl⟩
  · refine ⟨[], ?_, Or.inl rfl⟩
    simp only [List.append_nil]
    have ha : spanUntil ['/', '\\', '?', '#']
        (host ++ ('/' :: ("watch".data ++ '?' :: ('v' :: '=' :: id)))) =
        (host, '/' :: ("watch".data ++ '?' :: ('v' :: '=' :: id))) :=
      spanUntil_append_stop host _ hh (by decide)
    have hpath : spanUntil ['?', '#']
        ('/' :: ("watch".data ++ '?' :: ('v' :: '=' :: id))) =
        ('/' :: "watch".data, '?' :: ('v' :: '=' :: id)) := by
      rw [spanUntil_cons_keep _ (by decide),
        spanUntil_append_stop "watch".data _ (by decide) (by decide)]
    have h1 : spanUntil ['#'] ('v' :: '=' :: id) = ('v' :: '=' :: id, []) := by
      rw [spanUntil_cons_keep _ (by decide),
        spanUntil_cons_keep _ (by decide), spanUntil_all_keep hid2]
    simp only [parseAfterScheme, ha, hpath, h1, hsegs, hnorm]
    rfl
  · refine ⟨'&' :: (spanUntil ['#'] t).1, ?_, Or.inr ⟨_, rfl⟩⟩
    have ha : spanUntil ['/', '\\', '?', '#']
        (host ++ ('/' :: ("watch".data ++ '?' :: ('v' :: '=' :: (id ++ '&' :: t))))) =
        (host, '/' :: ("watch".data ++ '?' :: ('v' :: '=' :: (id ++ '&' :: t)))) :=
      spanUntil_append_stop host _ hh (by decide)
    have hpath : spanUntil ['?', '#']
        ('/' :: ("watch".data ++ '?' :: ('v' :: '=' :: (id ++ '&' :: t)))) =
        ('/' :: "watch".data, '?' :: ('v' :: '=' :: (id ++ '&' :: t))) := by
      rw [spanUntil_cons_keep _ (by decide),
        spanUntil_append_stop "watch".data _ (by decide) (by decide)]
    have h1 : spanUntil ['#'] ('v' :: '=' :: (id ++ '&' :: t)) =
        ('v' :: '=' :: (id ++ '&' :: (spanUntil ['#'] t).1), (spanUntil ['#'] t).2) := by
      rw [spanUntil_cons_keep _ (by decide), spanUntil_cons_keep _ (by decide),
        spanUntil_append_left id _ hid2, spanUntil_cons_keep _ (by decide)]
    simp only [parseAfterScheme, ha, hpath, h1, hsegs, hnorm]
    rfl

theorem parseAfterScheme_shorts (host id qs : List Char)
    (hh : ∀ c ∈ host, c ∉ (['/', '\\', '?', '#'] : List Char))
    (hidw : id.all wordDashChar = true)
    (hqs : qs = [] ∨ ∃ t, qs = '?' :: t) :
    ∃ srch,
      parseAfterScheme (host ++ ('/' :: ("shorts".data ++ '/' :: (id ++ qs)))) =
        { hostname := host.map Char.toLower,
          pathname := '/' :: ("shorts".data ++ '/' :: id), search := srch } := by
  have ha : spanUntil ['/', '\\', '?', '#']
      (host ++ ('/' :: ("shorts".data ++ '/' :: (id ++ qs)))) =
      (host, '/' :: ("shorts".data ++ '/' :: (id ++ qs))) :=
    spanUntil_append_stop host _ hh (by decide)
  have hid2 : ∀ x ∈ id, x ∉ (['?', '#'] : List Char) :=
    wordDash_all_notMem hidw (by decide)
  have hsegs : splitOnAny ['/', '\\'] ('/' :: ("shorts".data ++ '/' :: id)) =
      [[], "shorts".data, id] := by
    rw [splitOnAny_cons_sep _ (by decide),
      splitOnAny_append_sep "shorts".data _ (by decide) (by decide),
      splitOnAny_no_sep (wordDash_all_notMem hidw (by decide))]
  have hnorm : normSegs [] ["shorts".data, id] = ["shorts".data, id] := by
    have hne1 : id ≠ ['.'] := by
      intro e
      exact absurd (List.all_eq_true.mp hidw '.' (by rw [e]; simp)) (by decide)
    have hne2 : id ≠ ['.', '.'] := by
      intro e
      exact absurd (List.all_eq_true.mp hidw '.' (by rw [e]; simp)) (by decide)
    have hnd : ∀ stack, normSegs stack ["shorts".data, id] = stack ++ ["shorts".data, id] :=
      normSegs_no_dots (by
        intro s hs
        rcases List.mem_cons.mp hs with rfl | hs2
        · exact ⟨by decide, by decide⟩
        · rcases List.mem_cons.mp hs2 with rfl | hs3
          · exact ⟨hne1, hne2⟩
          · cases hs3)
    simpa using hnd []
  rcases hqs with rfl | ⟨t, rfl⟩
  · refine ⟨[], ?_⟩
    have h1 : spanUntil ['?', '#'] ('/' :: ("shorts".data ++ '/' :: (id ++ []))) =
        ('/' :: ("shorts".data ++ '/' :: id), []) := by
      rw [List.append_nil, spanUntil_cons_keep _ (by decide),
        spanUntil_append_left "shorts".data _ (by decide),
        spanUntil_cons_keep _ (by decide), spanUntil_all_keep hid2]
    simp only [parseAfterScheme, ha, h1, hsegs, hnorm]
    rfl
  · refine ⟨(spanUntil ['#'] t).1, ?_⟩
    have h1 : spanUntil ['?', '#'] ('/' :: ("shorts".data ++ '/' :: (id ++ '?' :: t))) =
        ('/' :: ("shorts".data ++ '/' :: id), '?' :: t) := by
      rw [spanUntil_cons_keep _ (by decide),
        spanUntil_append_left "shorts".data _ (by decide),
        spanUntil_cons_keep _ (by decide), spanUntil_append_left id _ hid2,
        spanUntil_cons_stop _ (by decide)]
      simp
    simp only [parseAfterScheme, ha, h1, hsegs, hnorm]
    rfl

theorem getSearchParam_first_v {id : List Char}
    (hidw : id.all wordDashChar = true) (rest : List (List Char)) :
    getSearchParam "v".data (('v' :: '=' :: id) :: rest) = some id := by
  have hv : spanUntil ['='] ('v' :: '=' :: id) = (['v'], '=' :: id) := by
    rw [spanUntil_cons_keep _ (by decide), spanUntil_cons_stop _ (by decide)]
  rw [getSearchParam]
  rw [if_neg (by simp)]
  simp only [hv]
  rw [pctDecodeL_wordDash (show (['v'] : List Char).all wordDashChar = true by decide),
    pctDecodeL_wordDash hidw]
  simp

theorem not_ws_append {l1 l2 : List Char} (h1 : ∀ c ∈ l1, isJsWs c = false)
    (h2 : ∀ c ∈ l2, isJsWs c = false) : ∀ c ∈ l1 ++ l2, isJsWs c = false := by
  intro c hc
  rcases List.mem_append.mp hc with h | h
  · exact h1 c h
  · exact h2 c h

theorem not_ws_cons {c0 : Char} {l : List Char} (h0 : isJsWs c0 = false)
    (h : ∀ c ∈ l, isJsWs c = false) : ∀ c ∈ c0 :: l, isJsWs c = false := by
  intro c hc
  rcases List.mem_cons.mp hc with rfl | h2
  · exact h0
  · exact h c h2

theorem vEqPiece_no_amp {id : List Char} (hidw : id.all wordDashChar = true) :
    ∀ c ∈ 'v' :: '=' :: id, c ∉ (['&'] : List Char) := by
  intro c hc
  rcases List.mem_cons.mp hc with rfl | hc2
  · decide
  · rcases List.mem_cons.mp hc2 with rfl | hc3
    · decide
    · exact wordDash_all_notMem hidw (by decide) c hc3

/-! ## The identifier resolver on the three accepted shapes -/

theorem extractVideoIdCore_parsed {t : List Char} {u : UrlParts}
    (h1 : youtubeUrlRegexTest t = true) (h2 : parseUrl t = some u) :
    extractVideoIdCore t = vidFromUrl t u := by
  unfold extractVideoIdCore
  simp [h1, h2]

theorem vidFromUrl_short (t pathname srch : List Char) :
    vidFromUrl t { hostname := "youtu.be".data, pathname := pathname, search := srch } =
      .ok (pathname.drop 1) := by
  unfold vidFromUrl
  simp

theorem vidFromUrl_watch {host : List Char} (t srch : List Char) {id : List Char}
    (hbr : host = "www.youtube.com".data ∨ host = "youtube.com".data)
    (hget : getSearchParam "v".data (splitOnAny ['&'] srch) = some id)
    (hid : id ≠ []) :
    vidFromUrl t { hostname := host, pathname := "/watch".data, search := srch } =
      .ok id := by
  rcases hbr with rfl | rfl <;> simp +decide [vidFromUrl, hget, hid]

theorem vidFromUrl_shorts {host : List Char} (t srch : List Char)
    {pathname id : List Char}
    (hbr : host = "www.youtube.com".data ∨ host = "youtube.com".data)
    (hnw : pathname ≠ "/watch".data)
    (hlw : leadsWith "/shorts/".data pathname = true)
    (hsplit : (splitOnAny ['/'] pathname).getD 2 [] = id) :
    vidFromUrl t { hostname := host, pathname := pathname, search := srch } =
      .ok id := by
  have h1 : host ≠ "youtu.be".data := by rcases hbr with rfl | rfl <;> decide
  unfold vidFromUrl
  rw [if_neg h1, if_pos hbr, if_neg hnw]
  simp only [hlw, eq_self_iff_true, if_true, hsplit]

theorem extractVideoIdL_watch (host id qs : List Char)
    (hh : ∀ c ∈ host, c ∉ (['/', '\\', '?', '#'] : List Char))
    (hws : ∀ c ∈ host, isJsWs c = false)
    (hlower : host.map Char.toLower = host)
    (hne : host ≠ "youtu.be".data)
    (hbr : host = "www.youtube.com".data ∨ host = "youtube.com".data)
    (hid : id ≠ []) (hidw : id.all wordDashChar = true)
    (hqs : qs = [] ∨ ∃ t, qs = '&' :: t)
    (hqsw : ∀ c ∈ qs, isJsWs c = false)
    (hregex : youtubeUrlRegexTest ("https://".data ++
      (host ++ ('/' :: ("watch".data ++ '?' :: ('v' :: '=' :: (id ++ qs)))))) = true) :
    extractVideoIdL ("https://".data ++
      (host ++ ('/' :: ("watch".data ++ '?' :: ('v' :: '=' :: (id ++ qs)))))) = .ok id := by
  have htrim : jsTrimL ("https://".data ++
      (host ++ ('/' :: ("watch".data ++ '?' :: ('v' :: '=' :: (id ++ qs)))))) =
      "https://".data ++ (host ++ ('/' :: ("watch".data ++ '?' :: ('v' :: '=' :: (id ++ qs))))) :=
    jsTrimL_eq_self (not_ws_append (by decide) (not_ws_append hws (not_ws_cons (by decide)
      (not_ws_append (by decide) (not_ws_cons (by decide) (not_ws_cons (by decide)
        (not_ws_cons (by decide) (not_ws_append (wordDash_all_not_ws hidw) hqsw))))))))
  obtain ⟨qtail, hps, hqt⟩ := parseAfterScheme_watch host id qs hh hidw hqs
  have hget : getSearchParam "v".data (splitOnAny ['&'] ('v' :: '=' :: (id ++ qtail))) =
      some id := by
    rcases hqt with rfl | ⟨T, rfl⟩
    · rw [List.append_nil, splitOnAny_no_sep (vEqPiece_no_amp hidw)]
      exact getSearchParam_first_v hidw []
    · rw [show ('v' :: '=' :: (id ++ '&' :: T)) = ('v' :: '=' :: id) ++ '&' :: T by simp,
        splitOnAny_append_sep _ _ (vEqPiece_no_amp hidw) (by decide)]
      exact getSearchParam_first_v hidw _
  have hpu : parseUrl ("https://".data ++
      (host ++ ('/' :: ("watch".data ++ '?' :: ('v' :: '=' :: (id ++ qs)))))) =
      some { hostname := host.map Char.toLower, pathname := "/watch".data,
             search := 'v' :: '=' :: (id ++ qtail) } := by
    unfold parseUrl
    rw [stripScheme_https]
    exact congrArg _ hps
  unfold extractVideoIdL
  rw [htrim, extractVideoIdCore_parsed hregex hpu, hlower]
  exact vidFromUrl_watch _ _ hbr hget hid

theorem extractVideoIdL_short (id qs : List Char)
    (hid : id ≠ []) (hidw : id.all wordDashChar = true)
    (hqs : qs = [] ∨ ∃ t, qs = '?' :: t)
    (hqsw : ∀ c ∈ qs, isJsWs c = false)
    (hregex : youtubeUrlRegexTest ("https://".data ++
      ("youtu.be".data ++ ('/' :: (id ++ qs)))) = true) :
    extractVideoIdL ("https://".data ++ ("youtu.be".data ++ ('/' :: (id ++ qs)))) = .ok id := by
  have htrim : jsTrimL ("https://".data ++ ("youtu.be".data ++ ('/' :: (id ++ qs)))) =
      "https://".data ++ ("youtu.be".data ++ ('/' :: (id ++ qs))) :=
    jsTrimL_eq_self (not_ws_append (by decide) (not_ws_append (by decide)
      (not_ws_cons (by decide) (not_ws_append (wordDash_all_not_ws hidw) hqsw))))
  obtain ⟨srch, hps⟩ := parseAfterScheme_short id qs hidw hqs
  have hps2 : parseAfterScheme ("youtu.be".data ++ ('/' :: (id ++ qs))) =
      { hostname := "youtu.be".data, pathname := '/' :: id, search := srch } := by
    rw [show ("youtu.be".data ++ ('/' :: (id ++ qs))) = "youtu.be/".data ++ (id ++ qs) from rfl]
    exact hps
  have hpu : parseUrl ("https://".data ++ ("youtu.be".data ++ ('/' :: (id ++ qs)))) =
      some { hostname := "youtu.be".data, pathname := '/' :: id, search := srch } := by
    unfold parseUrl
    rw [stripScheme_https]
    exact congrArg _ hps2
  unfold extractVideoIdL
  rw [htrim, extractVideoIdCore_parsed hregex hpu, vidFromUrl_short]
  rfl

theorem extractVideoIdL_shorts (host id qs : List Char)
    (hh : ∀ c ∈ host, c ∉ (['/', '\\', '?', '#'] : List Char))
    (hws : ∀ c ∈ host, isJsWs c = false)
    (hlower : host.map Char.toLower = host)
    (hne : host ≠ "youtu.be".data)
    (hbr : host = "www.youtube.com".data ∨ host = "youtube.com".data)
    (hid : id ≠ []) (hidw : id.all wordDashChar = true)
    (hqs : qs = [] ∨ ∃ t, qs = '?' :: t)
    (hqsw : ∀ c ∈ qs, isJsWs c = false)
    (hregex : youtubeUrlRegexTest ("https://".data ++
      (host ++ ('/' :: ("shorts".data ++ '/' :: (id ++ qs))))) = true) :
    extractVideoIdL ("https://".data ++
      (host ++ ('/' :: ("shorts".data ++ '/' :: (id ++ qs))))) = .ok id := by
  have htrim : jsTrimL ("https://".data ++ (host ++ ('/' :: ("shorts".data ++ '/' :: (id ++ qs))))) =
      "https://".data ++ (host ++ ('/' :: ("shorts".data ++ '/' :: (id ++ qs)))) :=
    jsTrimL_eq_self (not_ws_append (by decide) (not_ws_append hws (not_ws_cons (by decide)
      (not_ws_append (by decide) (not_ws_cons (by decide)
        (not_ws_append (wordDash_all_not_ws hidw) hqsw))))))
  obtain ⟨srch, hps⟩ := parseAfterScheme_shorts host id qs hh hidw hqs
  have hnw : ('/' :: ("shorts".data ++ '/' :: id)) ≠ "/watch".data := by
    intro e
    injection e with _ e2
    injection e2 with e3 _
    exact absurd e3 (by decide)
  have hlw : leadsWith "/shorts/".data ('/' :: ("shorts".data ++ '/' :: id)) = true := by
    rw [show ('/' :: ("shorts".data ++ '/' :: id)) = "/shorts/".data ++ id from rfl]
    unfold leadsWith
    rw [dropLead_pref]
    rfl
  have hsplit : splitOnAny ['/'] ('/' :: ("shorts".data ++ '/' :: id)) =
      [[], "shorts".data, id] := by
    rw [splitOnAny_cons_sep _ (by decide),
      splitOnAny_append_sep "shorts".data _ (by decide) (by decide),
      splitOnAny_no_sep (wordDash_all_notMem hidw (by decide))]
  have hpu : parseUrl ("https://".data ++
      (host ++ ('/' :: ("shorts".data ++ '/' :: (id ++ qs))))) =
      some { hostname := host.map Char.toLower,
             pathname := '/' :: ("shorts".data ++ '/' :: id), search := srch } := by
    unfold parseUrl
    rw [stripScheme_https]
    exact congrArg _ hps
  unfold extractVideoIdL
  rw [htrim, extractVideoIdCore_parsed hregex hpu, hlower]
  exact vidFromUrl_shorts _ _ hbr hnw hlw (by rw [hsplit]; rfl)

theorem extractVideoId_invalid (url : String)
    (h : youtubeUrlRegexTest (jsTrimL url.data) = false) :
    extractVideoId url = .error (.validation invalidUrlMessage) := by
  have hc : extractVideoIdCore (jsTrimL url.data) =
      .error (.validation invalidUrlMessage) := by
    unfold extractVideoIdCore
    simp [h]
  unfold extractVideoId extractVideoIdL
  rw [hc]
  rfl

/-! ## Lemmas about the batch loop and its effect log -/

theorem batchLoop_shots (vid : String) (uD : Option String) (oD : String)
    (frame : TimestampCandidate → Except String String) (ts : List TimestampCandidate) :
    (batchLoop vid uD oD frame ts).1 =
      (ts.filter (fun c => frameOk frame c)).map (shotOf vid uD oD frame) := by
  induction ts with
  | nil => rfl
  | cons c rest ih =>
    unfold batchLoop
    cases hk : frameOk frame c <;> simp [List.filter_cons, hk, ih]

theorem batchLoop_errs (vid : String) (uD : Option String) (oD : String)
    (frame : TimestampCandidate → Except String String) (ts : List TimestampCandidate) :
    (batchLoop vid uD oD frame ts).2.1 =
      (ts.filter (fun c => !frameOk frame c)).map (errorLine frame) := by
  induction ts with
  | nil => rfl
  | cons c rest ih =>
    unfold batchLoop
    cases hk : frameOk frame c <;> simp [List.filter_cons, hk, ih]

theorem batchLoop_write_mem (vid : String) (uD : Option String) (oD : String)
    (frame : TimestampCandidate → Except String String)
    {ts : List TimestampCandidate} {c : TimestampCandidate} (hc : c ∈ ts)
    (hok : frameOk frame c = true) :
    FsOp.writeFile (joinPath oD (shotFileName vid c.time_seconds)) ∈
      (batchLoop vid uD oD frame ts).2.2 := by
  induction ts with
  | nil => cases hc
  | cons d rest ih =>
    unfold batchLoop
    rcases List.mem_cons.mp hc with rfl | hmem
    · rw [if_pos hok]
      exact List.mem_append_left _ (List.mem_cons_self _ _)
    · cases hd : frameOk frame d
      · rw [if_neg Bool.false_ne_true]
        exact ih hmem
      · rw [if_pos rfl]
        exact List.mem_append_right _ (ih hmem)

theorem batchLoop_unlink_mem (vid : String) (oD : String)
    (frame : TimestampCandidate → Except String String)
    {ts : List TimestampCandidate} {c : TimestampCandidate} (hc : c ∈ ts)
    (hok : frameOk frame c = true) :
    FsOp.unlink (joinPath oD (shotFileName vid c.time_seconds)) ∈
      (batchLoop vid none oD frame ts).2.2 := by
  induction ts with
  | nil => cases hc
  | cons d rest ih =>
    unfold batchLoop
    rcases List.mem_cons.mp hc with rfl | hmem
    · rw [if_pos hok]
      exact List.mem_append_left _ (List.mem_cons_of_mem _ (List.mem_cons_self _ _))
    · cases hd : frameOk frame d
      · rw [if_neg Bool.false_ne_true]
        exact ih hmem
      · rw [if_pos rfl]
        exact List.mem_append_right _ (ih hmem)

theorem batchLoop_writes_shape (vid : String) (uD : Option String) (oD : String)
    (frame : TimestampCandidate → Except String String)
    {ts : List TimestampCandidate} {p : String}
    (h : FsOp.writeFile p ∈ (batchLoop vid uD oD frame ts).2.2) :
    ∃ c ∈ ts, p = joinPath oD (shotFileName vid c.time_seconds) := by
  induction ts with
  | nil => cases h
  | cons d rest ih =>
    unfold batchLoop at h
    cases hd : frameOk frame d
    · rw [hd, if_neg Bool.false_ne_true] at h
      obtain ⟨c, hcm, hcp⟩ := ih h
      exact ⟨c, by simp [hcm], hcp⟩
    · rw [hd, if_pos rfl] at h
      rcases List.mem_append.mp h with h1 | h2
      · rcases List.mem_cons.mp h1 with he | h3
        · refine ⟨d, by simp, ?_⟩
          injection he
        · cases uD <;> simp at h3
      · obtain ⟨c, hcm, hcp⟩ := ih h2
        exact ⟨c, by simp [hcm], hcp⟩

theorem extractScreenshotsM_run {pe : ProbeEnv} {s s1 : ExtractorState} {n : Nat}
    (envOut : Option String) (tempDir : String)
    (frame : TimestampCandidate → Except String String) (url : String)
    (ts : List TimestampCandidate) (opts : ExtractOptions) {vid : String}
    (hcd : checkDependencies pe s = (none, s1, n))
    (hurl : extractVideoId url = .ok vid) :
    extractScreenshotsM pe envOut tempDir frame s url ts opts =
      (let userDir := jsOrStr opts.outputDir envOut
       let outputDir := userDir.getD tempDir
       let r := batchLoop vid userDir outputDir frame ts
       let ops := [FsOp.mkdtemp tempDir, FsOp.mkdirp outputDir] ++ r.2.2 ++
         (if userDir.isNone then [FsOp.rmrf tempDir] else [])
       if r.1.isEmpty && !r.2.1.isEmpty then
         { result := .error (.extraction ("All extractions failed:\n" ++
             String.intercalate "\n" r.2.1)),
           state := s1, probes := n, ops := ops }
       else { result := .ok r.1, state := s1, probes := n, ops := ops }) := by
  unfold extractScreenshotsM
  rw [hcd, hurl]

theorem extractScreenshotsM_probes (pe : ProbeEnv) (envOut : Option String)
    (tempDir : String) (frame : TimestampCandidate → Except String String)
    (s : ExtractorState) (url : String) (ts : List TimestampCandidate)
    (opts : ExtractOptions) :
    (extractScreenshotsM pe envOut tempDir frame s url ts opts).probes =
      (checkDependencies pe s).2.2 := by
  unfold extractScreenshotsM
  rcases h : checkDependencies pe s with ⟨o, s1, n⟩
  rcases o with _ | m
  · cases hurl : extractVideoId url with
    | error e => rfl
    | ok v =>
      simp only []
      split <;> rfl
  · rfl

theorem replay_files_written (ops : List FsOp) (st : FsState) (p : String)
    (hp : p ∈ (ops.foldl applyOp st).files) :
    p ∈ st.files ∨ FsOp.writeFile p ∈ ops := by
  induction ops generalizing st with
  | nil => exact Or.inl hp
  | cons op rest ih =>
    rw [List.foldl_cons] at hp
    rcases ih (applyOp st op) hp with h1 | h2
    · cases op with
      | mkdtemp d => exact Or.inl h1
      | mkdirp d => exact Or.inl h1
      | writeFile q =>
        rcases List.mem_append.mp h1 with ha | hb
        · exact Or.inl ha
        · simp at hb
          subst hb
          exact Or.inr (by simp)
      | unlink q => exact Or.inl (List.mem_of_mem_filter h1)
      | rmrf d => exact Or.inl (List.mem_of_mem_filter h1)
    · exact Or.inr (List.mem_cons_of_mem _ h2)

theorem replayOps_rmrf_last (pre : List FsOp) (d : String) :
    (replayOps (pre ++ [FsOp.rmrf d])).files =
      (replayOps pre).files.filter (fun q => !underDir d q) := by
  unfold replayOps
  rw [List.foldl_append]
  rfl

theorem underDir_joinPath (d f : String) : underDir d (joinPath d f) = true := by
  unfold underDir joinPath leadsWith
  rw [show ((d ++ "/") ++ f).data = (d ++ "/").data ++ f.data from data_append _ _,
    dropLead_pref]
  rfl

theorem extractScreenshotsM_result_ok {pe : ProbeEnv} {s s1 : ExtractorState} {n : Nat}
    (envOut : Option String) (tempDir : String)
    (frame : TimestampCandidate → Except String String) (url : String)
    (ts : List TimestampCandidate) (opts : ExtractOptions) {vid : String}
    (hcd : checkDependencies pe s = (none, s1, n))
    (hurl : extractVideoId url = .ok vid)
    (hcond : ((batchLoop vid (jsOrStr opts.outputDir envOut)
        ((jsOrStr opts.outputDir envOut).getD tempDir) frame ts).1.isEmpty &&
      !(batchLoop vid (jsOrStr opts.outputDir envOut)
        ((jsOrStr opts.outputDir envOut).getD tempDir) frame ts).2.1.isEmpty) = false) :
    (extractScreenshotsM pe envOut tempDir frame s url ts opts).result =
      .ok (batchLoop vid (jsOrStr opts.outputDir envOut)
        ((jsOrStr opts.outputDir envOut).getD tempDir) frame ts).1 := by
  rw [extractScreenshotsM_run envOut tempDir frame url ts opts hcd hurl]
  dsimp only []
  rw [hcond, if_neg (by decide)]

theorem extractScreenshotsM_result_err {pe : ProbeEnv} {s s1 : ExtractorState} {n : Nat}
    (envOut : Option String) (tempDir : String)
    (frame : TimestampCandidate → Except String String) (url : String)
    (ts : List TimestampCandidate) (opts : ExtractOptions) {vid : String}
    (hcd : checkDependencies pe s = (none, s1, n))
    (hurl : extractVideoId url = .ok vid)
    (hcond : ((batchLoop vid (jsOrStr opts.outputDir envOut)
        ((jsOrStr opts.outputDir envOut).getD tempDir) frame ts).1.isEmpty &&
      !(batchLoop vid (jsOrStr opts.outputDir envOut)
        ((jsOrStr opts.outputDir envOut).getD tempDir) frame ts).2.1.isEmpty) = true) :
    (extractScreenshotsM pe envOut tempDir frame s url ts opts).result =
      .error (.extraction ("All extractions failed:\n" ++ String.intercalate "\n"
        (batchLoop vid (jsOrStr opts.outputDir envOut)
          ((jsOrStr opts.outputDir envOut).getD tempDir) frame ts).2.1)) := by
  rw [extractScreenshotsM_run envOut tempDir frame url ts opts hcd hurl]
  dsimp only []
  rw [hcond, if_pos rfl]

theorem extractScreenshotsM_ok_inv {pe : ProbeEnv} {s s1 : ExtractorState} {n : Nat}
    (envOut : Option String) (tempDir : String)
    (frame : TimestampCandidate → Except String String) (url : String)
    (ts : List TimestampCandidate) (opts : ExtractOptions) {vid : String} {l : List Screenshot}
    (hcd : checkDependencies pe s = (none, s1, n))
    (hurl : extractVideoId url = .ok vid)
    (hok : (extractScreenshotsM pe envOut tempDir frame s url ts opts).result = .ok l) :
    l = (batchLoop vid (jsOrStr opts.outputDir envOut)
      ((jsOrStr opts.outputDir envOut).getD tempDir) frame ts).1 := by
  rw [extractScreenshotsM_run envOut tempDir frame url ts opts hcd hurl] at hok
  dsimp only [] at hok
  split at hok
  · exact Except.noConfusion hok
  · injection hok with h
    exact h.symm

theorem extractScreenshotsM_ops {pe : ProbeEnv} {s s1 : ExtractorState} {n : Nat}
    (envOut : Option String) (tempDir : String)
    (frame : TimestampCandidate → Except String String) (url : String)
    (ts : List TimestampCandidate) (opts : ExtractOptions) {vid : String}
    (hcd : checkDependencies pe s = (none, s1, n))
    (hurl : extractVideoId url = .ok vid) :
    (extractScreenshotsM pe envOut tempDir frame s url ts opts).ops =
      [FsOp.mkdtemp tempDir, FsOp.mkdirp ((jsOrStr opts.outputDir envOut).getD tempDir)] ++
      (batchLoop vid (jsOrStr opts.outputDir envOut)
        ((jsOrStr opts.outputDir envOut).getD tempDir) frame ts).2.2 ++
      (if (jsOrStr opts.outputDir envOut).isNone then [FsOp.rmrf tempDir] else []) := by
  rw [extractScreenshotsM_run envOut tempDir frame url ts opts hcd hurl]
  dsimp only []
  split <;> rfl

/-! ## Claim theorems -/

/-- C3: the quality translation used for the transcoder,
`quality ↦ clamp(round((100 - quality) / 3.33), 2, 31)`, is monotone
(a higher caller quality never yields a higher transcoder value), maps
quality 100 to 2 and quality 1 to 30 (≈30), and for every integer input
in [1,100] its output lies within [2,31]. -/
theorem ffmpegQuality_monotone_bounded :
    (∀ a b : ℚ, a ≤ b → ffmpegQuality b ≤ ffmpegQuality a) ∧
    ffmpegQuality 100 = 2 ∧ ffmpegQuality 1 = 30 ∧
    (∀ m : ℤ, 1 ≤ m → m ≤ 100 →
      2 ≤ ffmpegQuality (m : ℚ) ∧ ffmpegQuality (m : ℚ) ≤ 31) := by
  refine ⟨?_, ?_, ?_, ?_⟩
  · intro a b hab
    unfold ffmpegQuality jsRound
    have h1 : ((100 : ℚ) - b) / (333 / 100) ≤ ((100 : ℚ) - a) / (333 / 100) := by
      gcongr
    exact max_le_max le_rfl (min_le_min le_rfl (Int.floor_le_floor (add_le_add_right h1 _)))
  · have h0 : (⌊((100 : ℚ) - 100) / (333 / 100) + 1 / 2⌋ : ℤ) = 0 := by
      rw [Int.floor_eq_iff]
      constructor <;> norm_num
    rw [ffmpegQuality, jsRound, h0]
    decide
  · have h30 : (⌊((100 : ℚ) - 1) / (333 / 100) + 1 / 2⌋ : ℤ) = 30 := by
      rw [Int.floor_eq_iff]
      constructor <;> norm_num
    rw [ffmpegQuality, jsRound, h30]
    decide
  · intro m h1 h2
    exact ⟨le_max_left _ _, max_le (by norm_num) (min_le_left _ _)⟩

/-- C3 witness: the monotonicity and bound conjuncts applied at
concrete inputs. -/
theorem ffmpegQuality_monotone_bounded_witness :
    ffmpegQuality 60 ≤ ffmpegQuality 50 ∧
    2 ≤ ffmpegQuality ((7 : ℤ) : ℚ) ∧ ffmpegQuality ((7 : ℤ) : ℚ) ≤ 31 :=
  ⟨ffmpegQuality_monotone_bounded.1 50 60 (by norm_num),
   (ffmpegQuality_monotone_bounded.2.2.2 7 (by norm_num) (by norm_num)).1,
   (ffmpegQuality_monotone_bounded.2.2.2 7 (by norm_num) (by norm_num)).2⟩

/-- C2 counterexample: the claim says the stream request for `full`
imposes no height limit, but `RESOLUTION_MAP[resolution] ?? 1080`
makes the `full` stream request use `height<=1080` — identical to the
`large` request — even though the map itself has no cap for `full`. -/
theorem resolution_full_caps_stream_at_1080 :
    RESOLUTION_MAP Resolution.full = none ∧
    targetHeight Resolution.full = 1080 ∧
    ytdlpFormat Resolution.full = "bestvideo[height<=1080]/best[height<=1080]" ∧
    ytdlpFormat Resolution.full = ytdlpFormat Resolution.large ∧
    includesSub "height<=1080".data
      (ytdlpStreamCmd "yt-dlp" Resolution.full "https://youtu.be/abc").data = true :=
  ⟨rfl, rfl, by decide, by decide, by decide⟩

/-- C2 amended: the height table is thumbnail→160, small→360,
medium→720, large→1080, full→no scale cap; the stream request caps at
the mapped height with `full` falling back to a 1080 cap; and the
`-vf scale=-1:h` filter is added to the ffmpeg command exactly when a
height cap is in effect (no scale filter for `full`). -/
theorem resolution_map_and_scale_filter :
    (RESOLUTION_MAP Resolution.thumbnail = some 160 ∧
     RESOLUTION_MAP Resolution.small = some 360 ∧
     RESOLUTION_MAP Resolution.medium = some 720 ∧
     RESOLUTION_MAP Resolution.large = some 1080 ∧
     RESOLUTION_MAP Resolution.full = none) ∧
    (∀ r h, RESOLUTION_MAP r = some h → targetHeight r = h) ∧
    targetHeight Resolution.full = 1080 ∧
    (∀ r, ytdlpFormat r = "bestvideo[height<=" ++ toString (targetHeight r) ++
      "]/best[height<=" ++ toString (targetHeight r) ++ "]") ∧
    (∀ p t u q o r h, RESOLUTION_MAP r = some h →
      ffmpegCmdArgs p t u q r o =
        [p, "-ss", toString t, "-i", u, "-vframes", "1", "-q:v",
         toString (ffmpegQuality q), "-vf", "scale=-1:" ++ toString h, "-y", o]) ∧
    (∀ p t u q o, ffmpegCmdArgs p t u q Resolution.full o =
        [p, "-ss", toString t, "-i", u, "-vframes", "1", "-q:v",
         toString (ffmpegQuality q), "-y", o]) := by
  refine ⟨⟨rfl, rfl, rfl, rfl, rfl⟩, ?_, rfl, fun r => rfl, ?_, fun p t u q o => rfl⟩
  · intro r h hr
    rw [targetHeight, hr]
    rfl
  · intro p t u q o r h hr
    unfold ffmpegCmdArgs
    rw [hr]
    rfl

/-- C2 amended witness: the table and scale-filter conjuncts applied at
concrete inputs. -/
theorem resolution_map_and_scale_filter_witness :
    ffmpegCmdArgs "ffmpeg" 12 "http://s" 85 Resolution.thumbnail "/o.jpg" =
      ["ffmpeg", "-ss", "12", "-i", "http://s", "-vframes", "1", "-q:v",
       toString (ffmpegQuality 85), "-vf", "scale=-1:160", "-y", "/o.jpg"] ∧
    targetHeight Resolution.small = 360 := by
  refine ⟨?_, resolution_map_and_scale_filter.2.1 Resolution.small 360 rfl⟩
  rw [resolution_map_and_scale_filter.2.2.2.2.1 "ffmpeg" 12 "http://s" 85 "/o.jpg"
    Resolution.thumbnail 160 rfl]
  rfl

/-- C10: in the upstream-error classifier, the access check takes
precedence over the quota check: any message whose lower-casing
contains "video", "file" or "access" becomes a `VideoAccessError` with
no exclusion for "quota"/"rate"; a message with "quota" or "rate" but
none of the access substrings becomes a `VideoAnalysisError` with the
fixed quota message; every other message becomes a generic
`VideoAnalysisError` prefixed "Failed to analyze video:"; and every
`VideoAccessError` also satisfies the `VideoAnalysisError` instance
test (subclass). -/
theorem classify_upstream_error :
    (∀ url msg : String,
      (includesSub "video".data (strToLowerL msg.data)
        || includesSub "file".data (strToLowerL msg.data)
        || includesSub "access".data (strToLowerL msg.data)) = true →
      classifyAnalyzeFailure url msg = videoAccessErrorFor url) ∧
    (∀ url msg : String,
      (includesSub "video".data (strToLowerL msg.data)
        || includesSub "file".data (strToLowerL msg.data)
        || includesSub "access".data (strToLowerL msg.data)) = false →
      (includesSub "quota".data (strToLowerL msg.data)
        || includesSub "rate".data (strToLowerL msg.data)) = true →
      classifyAnalyzeFailure url msg =
        { name := "VideoAnalysisError", message := quotaMessage }) ∧
    (∀ url msg : String,
      (includesSub "video".data (strToLowerL msg.data)
        || includesSub "file".data (strToLowerL msg.data)
        || includesSub "access".data (strToLowerL msg.data)) = false →
      (includesSub "quota".data (strToLowerL msg.data)
        || includesSub "rate".data (strToLowerL msg.data)) = false →
      classifyAnalyzeFailure url msg =
        { name := "VideoAnalysisError",
          message := "Failed to analyze video: " ++ msg }) ∧
    (∀ url : String, isVideoAnalysisErrorName (videoAccessErrorFor url).name = true) := by
  refine ⟨?_, ?_, ?_, fun url => rfl⟩
  · intro url msg h
    unfold classifyAnalyzeFailure
    rw [h, if_pos rfl]
  · intro url msg h1 h2
    unfold classifyAnalyzeFailure
    rw [h1, if_neg (by decide), h2, if_pos rfl]
  · intro url msg h1 h2
    unfold classifyAnalyzeFailure
    rw [h1, if_neg (by decide), h2, if_neg (by decide)]

/-- C10 witness: a message containing both an access keyword and a
quota keyword is classified as `VideoAccessError`, and a quota-only
message gets the fixed quota message. -/
theorem classify_upstream_error_witness :
    classifyAnalyzeFailure "https://youtu.be/v1" "Video quota exceeded" =
      videoAccessErrorFor "https://youtu.be/v1" ∧
    classifyAnalyzeFailure "https://youtu.be/v1" "QUOTA exceeded or RATE limited" =
      { name := "VideoAnalysisError", message := quotaMessage } :=
  ⟨classify_upstream_error.1 _ _ (by decide),
   classify_upstream_error.2.1 _ _ (by decide) (by decide)⟩

/-- C7 counterexample: the claim says that after the first successful
dependency resolution no subsequent `extractScreenshots` call on the
same instance performs a new probe, but a second batch call on the
already-resolved instance state still performs 2 probes (the
unconditional `checkDependencies()` at the top of
`extractScreenshots`). -/
theorem extractScreenshots_reprobes_each_call :
    (extractScreenshotsM ⟨some "/usr/local/bin/yt-dlp", some "/usr/local/bin/ffmpeg"⟩
        none "/tmp/yt-screenshots-a" (fun _ => .ok "QUJD") ⟨none, none⟩
        "https://youtu.be/dQw4w9WgXcQ" [⟨10, "0:10", "intro"⟩] ⟨none, none, none⟩).state =
      ⟨some "/usr/local/bin/yt-dlp", some "/usr/local/bin/ffmpeg"⟩ ∧
    (extractScreenshotsM ⟨some "/usr/local/bin/yt-dlp", some "/usr/local/bin/ffmpeg"⟩
        none "/tmp/yt-screenshots-b" (fun _ => .ok "QUJD")
        ⟨some "/usr/local/bin/yt-dlp", some "/usr/local/bin/ffmpeg"⟩
        "https://youtu.be/dQw4w9WgXcQ" [⟨10, "0:10", "intro"⟩] ⟨none, none, none⟩).probes = 2 ∧
    (extractScreenshotsM ⟨some "/usr/local/bin/yt-dlp", some "/usr/local/bin/ffmpeg"⟩
        none "/tmp/yt-screenshots-b" (fun _ => .ok "QUJD")
        ⟨some "/usr/local/bin/yt-dlp", some "/usr/local/bin/ffmpeg"⟩
        "https://youtu.be/dQw4w9WgXcQ" [⟨10, "0:10", "intro"⟩] ⟨none, none, none⟩).probes ≠ 0 :=
  ⟨rfl, rfl, by decide⟩

/-- C7 amended: `extractFrame` probes only when a handle is missing
(with both tool paths cached it performs no probe and leaves the state
unchanged), `checkDependencies` performs both probes whenever the first
tool is found, and every `extractScreenshots` call unconditionally runs
`checkDependencies`, so each batch call performs that probe sequence
regardless of the cached instance state. -/
theorem dependency_probe_behavior :
    (∀ (pe : ProbeEnv) (s : ExtractorState), s.ytdlpPath.isSome = true →
      s.ffmpegPath.isSome = true → extractFrameDeps pe s = (none, s, 0)) ∧
    (∀ (pe : ProbeEnv) (s : ExtractorState) (y : String), pe.ytdlp = some y →
      (checkDependencies pe s).2.2 = 2) ∧
    (∀ pe envOut tempDir frame s url ts opts,
      (extractScreenshotsM pe envOut tempDir frame s url ts opts).probes =
        (checkDependencies pe s).2.2) := by
  refine ⟨?_, ?_, extractScreenshotsM_probes⟩
  · intro pe s h1 h2
    obtain ⟨yp, fp⟩ := s
    cases yp with
    | none => cases h1
    | some y =>
      cases fp with
      | none => cases h2
      | some f => rfl
  · intro pe s y hy
    unfold checkDependencies
    rw [hy]
    cases hpf : pe.ffmpeg <;> rfl

/-- C7 amended witness: the cached-handles and probe-count conjuncts
applied at concrete inputs. -/
theorem dependency_probe_behavior_witness :
    extractFrameDeps ⟨some "/a", some "/b"⟩ ⟨some "/a", some "/b"⟩ =
      (none, ⟨some "/a", some "/b"⟩, 0) ∧
    (checkDependencies ⟨some "/a", some "/b"⟩ ⟨none, none⟩).2.2 = 2 :=
  ⟨dependency_probe_behavior.1 _ _ rfl rfl,
   dependency_probe_behavior.2.1 _ _ "/a" rfl⟩

/-- C8: evaluating `extractScreenshots` at a durable-directory input
(`outputDir = "/keep"`): the system temp directory is still created by
the unconditional `fs.mkdtemp`, no removal of it is ever performed
(cleanup is guarded by `!userOutputDir`), and it remains on the
filesystem after the batch returns — contradicting the claim that a
temp directory is created only in the ephemeral case and that a
durable-directory run leaves no other artifacts behind. -/
theorem tempdir_leak_on_durable_run :
    FsOp.mkdtemp "/tmp/yt-screenshots-leak" ∈
      (extractScreenshotsM ⟨some "/usr/local/bin/yt-dlp", some "/usr/local/bin/ffmpeg"⟩
        none "/tmp/yt-screenshots-leak" (fun _ => .ok "QUJD") ⟨none, none⟩
        "https://youtu.be/dQw4w9WgXcQ" [⟨10, "0:10", "intro"⟩]
        ⟨some "/keep", none, none⟩).ops ∧
    FsOp.rmrf "/tmp/yt-screenshots-leak" ∉
      (extractScreenshotsM ⟨some "/usr/local/bin/yt-dlp", some "/usr/local/bin/ffmpeg"⟩
        none "/tmp/yt-screenshots-leak" (fun _ => .ok "QUJD") ⟨none, none⟩
        "https://youtu.be/dQw4w9WgXcQ" [⟨10, "0:10", "intro"⟩]
        ⟨some "/keep", none, none⟩).ops ∧
    "/tmp/yt-screenshots-leak" ∈
      (replayOps (extractScreenshotsM ⟨some "/usr/local/bin/yt-dlp", some "/usr/local/bin/ffmpeg"⟩
        none "/tmp/yt-screenshots-leak" (fun _ => .ok "QUJD") ⟨none, none⟩
        "https://youtu.be/dQw4w9WgXcQ" [⟨10, "0:10", "intro"⟩]
        ⟨some "/keep", none, none⟩).ops).dirs ∧
    (extractScreenshotsM ⟨some "/usr/local/bin/yt-dlp", some "/usr/local/bin/ffmpeg"⟩
        none "/tmp/yt-screenshots-leak" (fun _ => .ok "QUJD") ⟨none, none⟩
        "https://youtu.be/dQw4w9WgXcQ" [⟨10, "0:10", "intro"⟩]
        ⟨some "/keep", none, none⟩).result =
      .ok [⟨10, "0:10", "intro", "QUJD", "image/jpeg", some "/keep/dQw4w9WgXcQ_10s.jpg"⟩] :=
  ⟨by decide, by decide, by decide, rfl⟩

/-- C1: for a non-empty batch, if every per-item extraction fails the
call throws a single `ScreenshotExtractionError` whose message joins
one failure line per timestamp; if at least one item succeeds the call
returns exactly the successful Screenshots in input order, and the
returned length plus the number of failures equals the batch size. -/
theorem extractScreenshots_partial_failure {pe : ProbeEnv} {s s1 : ExtractorState} {n : Nat}
    (envOut : Option String) (tempDir : String)
    (frame : TimestampCandidate → Except String String) (url : String)
    (ts : List TimestampCandidate) (opts : ExtractOptions) {vid : String}
    (hcd : checkDependencies pe s = (none, s1, n))
    (hurl : extractVideoId url = .ok vid)
    (hne : ts ≠ []) :
    ((∀ c ∈ ts, frameOk frame c = false) →
      (extractScreenshotsM pe envOut tempDir frame s url ts opts).result =
        .error (.extraction ("All extractions failed:\n" ++
          String.intercalate "\n" (ts.map (errorLine frame))))) ∧
    (∀ c0 ∈ ts, frameOk frame c0 = true →
      (extractScreenshotsM pe envOut tempDir frame s url ts opts).result =
        .ok ((ts.filter (fun c => frameOk frame c)).map
          (shotOf vid (jsOrStr opts.outputDir envOut)
            ((jsOrStr opts.outputDir envOut).getD tempDir) frame))) ∧
    (∀ l, (extractScreenshotsM pe envOut tempDir frame s url ts opts).result = .ok l →
      l.length + (ts.filter (fun c => !frameOk frame c)).length = ts.length) := by
  refine ⟨?_, ?_, ?_⟩
  · intro hall
    have herr : (batchLoop vid (jsOrStr opts.outputDir envOut)
        ((jsOrStr opts.outputDir envOut).getD tempDir) frame ts).2.1 =
        ts.map (errorLine frame) := by
      rw [batchLoop_errs]
      congr 1
      exact List.filter_eq_self.mpr (fun a ha => by simp [hall a ha])
    have hsh : (batchLoop vid (jsOrStr opts.outputDir envOut)
        ((jsOrStr opts.outputDir envOut).getD tempDir) frame ts).1 = [] := by
      rw [batchLoop_shots,
        List.filter_eq_nil_iff.mpr (fun a ha => by simp [hall a ha])]
      rfl
    have hcond : ((batchLoop vid (jsOrStr opts.outputDir envOut)
        ((jsOrStr opts.outputDir envOut).getD tempDir) frame ts).1.isEmpty &&
        !(batchLoop vid (jsOrStr opts.outputDir envOut)
          ((jsOrStr opts.outputDir envOut).getD tempDir) frame ts).2.1.isEmpty) = true := by
      rw [hsh, herr]
      rcases ts with _ | ⟨t0, ts2⟩
      · exact absurd rfl hne
      · rfl
    rw [extractScreenshotsM_result_err envOut tempDir frame url ts opts hcd hurl hcond, herr]
  · intro c0 hc0 hok
    have hmem : c0 ∈ ts.filter (fun c => frameOk frame c) := List.mem_filter.mpr ⟨hc0, hok⟩
    have hcond : ((batchLoop vid (jsOrStr opts.outputDir envOut)
        ((jsOrStr opts.outputDir envOut).getD tempDir) frame ts).1.isEmpty &&
        !(batchLoop vid (jsOrStr opts.outputDir envOut)
          ((jsOrStr opts.outputDir envOut).getD tempDir) frame ts).2.1.isEmpty) = false := by
      rw [batchLoop_shots]
      rcases hft : ts.filter (fun c => frameOk frame c) with _ | ⟨x, xs⟩
      · rw [hft] at hmem
        cases hmem
      · rfl
    rw [extractScreenshotsM_result_ok envOut tempDir frame url ts opts hcd hurl hcond,
      batchLoop_shots]
  · intro l hl
    have hli := extractScreenshotsM_ok_inv envOut tempDir frame url ts opts hcd hurl hl
    subst hli
    rw [batchLoop_shots, List.length_map]
    exact filter_length_split _ ts

/-- C1 witness: a three-item batch with exactly one failure returns the
two surviving Screenshots in order, and a two-item batch where both
items fail throws the aggregated error. -/
theorem extractScreenshots_partial_failure_witness :
    (extractScreenshotsM ⟨some "/bin/yt-dlp", some "/bin/ffmpeg"⟩ none "/tmp/yt-w1"
      (fun c => if c.time_seconds = 5 then Except.error "boom" else Except.ok "QkFTRTY0")
      ⟨none, none⟩ "https://youtu.be/vid01"
      [⟨3, "0:03", "a"⟩, ⟨5, "0:05", "b"⟩, ⟨8, "0:08", "c"⟩] ⟨none, none, none⟩).result =
      .ok [⟨3, "0:03", "a", "QkFTRTY0", "image/jpeg", none⟩,
           ⟨8, "0:08", "c", "QkFTRTY0", "image/jpeg", none⟩] ∧
    (extractScreenshotsM ⟨some "/bin/yt-dlp", some "/bin/ffmpeg"⟩ none "/tmp/yt-w1"
      (fun _ => Except.error "boom") ⟨none, none⟩ "https://youtu.be/vid01"
      [⟨3, "0:03", "a"⟩, ⟨5, "0:05", "b"⟩] ⟨none, none, none⟩).result =
      .error (.extraction
        "All extractions failed:\nTimestamp 0:03: boom\nTimestamp 0:05: boom") := by
  constructor
  · rw [(extractScreenshots_partial_failure none "/tmp/yt-w1"
      (fun c => if c.time_seconds = 5 then Except.error "boom" else Except.ok "QkFTRTY0")
      "https://youtu.be/vid01"
      [⟨3, "0:03", "a"⟩, ⟨5, "0:05", "b"⟩, ⟨8, "0:08", "c"⟩] ⟨none, none, none⟩
      (by decide : checkDependencies (⟨some "/bin/yt-dlp", some "/bin/ffmpeg"⟩ : ProbeEnv)
        (⟨none, none⟩ : ExtractorState) =
        (none, (⟨some "/bin/yt-dlp", some "/bin/ffmpeg"⟩ : ExtractorState), 2))
      (rfl : extractVideoId "https://youtu.be/vid01" = Except.ok "vid01")
      (by decide)).2.1 ⟨3, "0:03", "a"⟩ (by decide) (by decide)]
    rfl
  · rw [(extractScreenshots_partial_failure none "/tmp/yt-w1"
      (fun _ => Except.error "boom") "https://youtu.be/vid01"
      [⟨3, "0:03", "a"⟩, ⟨5, "0:05", "b"⟩] ⟨none, none, none⟩
      (by decide : checkDependencies (⟨some "/bin/yt-dlp", some "/bin/ffmpeg"⟩ : ProbeEnv)
        (⟨none, none⟩ : ExtractorState) =
        (none, (⟨some "/bin/yt-dlp", some "/bin/ffmpeg"⟩ : ExtractorState), 2))
      (rfl : extractVideoId "https://youtu.be/vid01" = Except.ok "vid01")
      (by decide)).1 (by intro c hc; rfl)]
    rfl

/-- C9: `extractFramesAtTimestamps` synthesizes one candidate per bare
second value with `time_seconds` the input value, `time_formatted`
equal to floor(s/60) ":" zero-padded floor(s mod 60), and description
"Frame at M:SS", delegates to `extractScreenshots`, and (when every
frame succeeds) the output order exactly mirrors the input order. -/
theorem extractFramesAtTimestamps_order {pe : ProbeEnv} {s s1 : ExtractorState} {n : Nat}
    (envOut : Option String) (tempDir : String)
    (frame : TimestampCandidate → Except String String) (url : String)
    (opts : ExtractOptions) (secs : List Nat) {vid : String}
    (hcd : checkDependencies pe s = (none, s1, n))
    (hurl : extractVideoId url = .ok vid) :
    (∀ x : Nat, synthCandidate x =
      { time_seconds := x,
        time_formatted := toString (x / 60) ++ ":" ++ padStart2 (toString (x % 60)),
        description :=
          "Frame at " ++ (toString (x / 60) ++ ":" ++ padStart2 (toString (x % 60))) }) ∧
    (extractFramesAtTimestampsM pe envOut tempDir frame s url secs opts =
      extractScreenshotsM pe envOut tempDir frame s url (secs.map synthCandidate) opts) ∧
    ((∀ x ∈ secs, frameOk frame (synthCandidate x) = true) →
      ∃ l, (extractFramesAtTimestampsM pe envOut tempDir frame s url secs opts).result =
          .ok l ∧
        l.map (fun sh => sh.timestamp_seconds) = secs) := by
  refine ⟨fun x => rfl, rfl, ?_⟩
  intro hall
  have hfilter : (secs.map synthCandidate).filter (fun c => frameOk frame c) =
      secs.map synthCandidate :=
    List.filter_eq_self.mpr (by
      intro a ha
      obtain ⟨x, hx, rfl⟩ := List.mem_map.mp ha
      exact hall x hx)
  have hcond : ((batchLoop vid (jsOrStr opts.outputDir envOut)
      ((jsOrStr opts.outputDir envOut).getD tempDir) frame (secs.map synthCandidate)).1.isEmpty &&
      !(batchLoop vid (jsOrStr opts.outputDir envOut)
        ((jsOrStr opts.outputDir envOut).getD tempDir) frame
          (secs.map synthCandidate)).2.1.isEmpty) = false := by
    have herr : (batchLoop vid (jsOrStr opts.outputDir envOut)
        ((jsOrStr opts.outputDir envOut).getD tempDir) frame
          (secs.map synthCandidate)).2.1 = [] := by
      rw [batchLoop_errs, List.filter_eq_nil_iff.mpr (by
        intro a ha
        obtain ⟨x, hx, rfl⟩ := List.mem_map.mp ha
        simp [hall x hx])]
      rfl
    rw [herr]
    exact Bool.and_false _
  refine ⟨(batchLoop vid (jsOrStr opts.outputDir envOut)
    ((jsOrStr opts.outputDir envOut).getD tempDir) frame (secs.map synthCandidate)).1, ?_, ?_⟩
  · exact extractScreenshotsM_result_ok envOut tempDir frame url (secs.map synthCandidate)
      opts hcd hurl hcond
  · rw [batchLoop_shots, hfilter, List.map_map, List.map_map]
    have hid : (((fun sh : Screenshot => sh.timestamp_seconds) ∘
        shotOf vid (jsOrStr opts.outputDir envOut)
          ((jsOrStr opts.outputDir envOut).getD tempDir) frame) ∘ synthCandidate) = id :=
      funext (fun x => rfl)
    rw [hid, List.map_id]

/-- C9 witness: the input [3, 8, 15] yields three Screenshots whose
timestamp_seconds are 3, 8, 15 in that order. -/
theorem extractFramesAtTimestamps_order_witness :
    ∃ l, (extractFramesAtTimestampsM ⟨some "/bin/a", some "/bin/b"⟩ none "/tmp/yt-w9"
        (fun _ => .ok "QUJD") ⟨none, none⟩ "https://youtu.be/dQw4w9WgXcQ" [3, 8, 15]
        ⟨none, none, none⟩).result = .ok l ∧
      l.map (fun sh => sh.timestamp_seconds) = [3, 8, 15] :=
  (extractFramesAtTimestamps_order none "/tmp/yt-w9" (fun _ => .ok "QUJD")
    "https://youtu.be/dQw4w9WgXcQ" ⟨none, none, none⟩ [3, 8, 15]
    (by decide : checkDependencies (⟨some "/bin/a", some "/bin/b"⟩ : ProbeEnv)
      (⟨none, none⟩ : ExtractorState) =
      (none, (⟨some "/bin/a", some "/bin/b"⟩ : ExtractorState), 2))
    (rfl : extractVideoId "https://youtu.be/dQw4w9WgXcQ" = Except.ok "dQw4w9WgXcQ")).2.2
    (fun x hx => rfl)

theorem regexTest_of_core (p : String) (c : Char) (r : List Char)
    (hp : p ∈ regexCores) (hc : wordDashChar c = true) :
    youtubeUrlRegexTest (p.data ++ (c :: r)) = true := by
  unfold youtubeUrlRegexTest
  rw [List.any_eq_true]
  refine ⟨p, hp, ?_⟩
  simp only [dropLead_pref]
  exact hc

theorem shotOf_filePath_isSome (vid : String) (uD : Option String) (oD : String)
    (frame : TimestampCandidate → Except String String) (c : TimestampCandidate) :
    (shotOf vid uD oD frame c).filePath.isSome = uD.isSome := by
  cases uD <;> rfl

/-- C4: for the three accepted video-reference shapes — a watch URL with
`v` query parameter (further parameters ignored), a `youtu.be`
short-link where the id is the path, and a `shorts` path — the resolver
`extractVideoId` returns exactly the id segment, on either host form;
any input rejected by the URL regex fails with the zod refinement's
`ValidationError` message. -/
theorem extractVideoId_shapes (host id qs qw : List Char) (url : String)
    (hbr : host = "www.youtube.com".data ∨ host = "youtube.com".data)
    (hid : id ≠ []) (hidw : id.all wordDashChar = true)
    (hqs : qs = [] ∨ ∃ t, qs = '&' :: t) (hqsw : ∀ c ∈ qs, isJsWs c = false)
    (hqw : qw = [] ∨ ∃ t, qw = '?' :: t) (hqww : ∀ c ∈ qw, isJsWs c = false)
    (hbad : youtubeUrlRegexTest (jsTrimL url.data) = false) :
    extractVideoId (String.mk ("https://".data ++ (host ++ ('/' :: ("watch".data ++
        '?' :: ('v' :: '=' :: (id ++ qs))))))) = .ok (String.mk id) ∧
    extractVideoId (String.mk ("https://".data ++ ("youtu.be".data ++
        ('/' :: (id ++ qw))))) = .ok (String.mk id) ∧
    extractVideoId (String.mk ("https://".data ++ (host ++ ('/' :: ("shorts".data ++
        '/' :: (id ++ qw)))))) = .ok (String.mk id) ∧
    extractVideoId url = .error (.validation invalidUrlMessage) := by
  obtain ⟨c0, id', rfl⟩ := List.exists_cons_of_ne_nil hid
  have hc0 : wordDashChar c0 = true := List.all_eq_true.mp hidw c0 (List.mem_cons_self c0 id')
  refine ⟨?_, ?_, ?_, extractVideoId_invalid url hbad⟩
  · rcases hbr with rfl | rfl
    · show (extractVideoIdL ("https://".data ++ ("www.youtube.com".data ++ ('/' ::
          ("watch".data ++ '?' :: ('v' :: '=' :: ((c0 :: id') ++ qs))))))).map String.mk =
        Except.ok (String.mk (c0 :: id'))
      rw [extractVideoIdL_watch "www.youtube.com".data (c0 :: id') qs (by decide) (by decide)
        (by decide) (by decide) (Or.inl rfl) hid hidw hqs hqsw
        (regexTest_of_core "https://www.youtube.com/watch?v=" c0 (id' ++ qs) (by decide) hc0)]
      rfl
    · show (extractVideoIdL ("https://".data ++ ("youtube.com".data ++ ('/' ::
          ("watch".data ++ '?' :: ('v' :: '=' :: ((c0 :: id') ++ qs))))))).map String.mk =
        Except.ok (String.mk (c0 :: id'))
      rw [extractVideoIdL_watch "youtube.com".data (c0 :: id') qs (by decide) (by decide)
        (by decide) (by decide) (Or.inr rfl) hid hidw hqs hqsw
        (regexTest_of_core "https://youtube.com/watch?v=" c0 (id' ++ qs) (by decide) hc0)]
      rfl
  · show (extractVideoIdL ("https://".data ++ ("youtu.be".data ++
        ('/' :: ((c0 :: id') ++ qw))))).map String.mk = Except.ok (String.mk (c0 :: id'))
    rw [extractVideoIdL_short (c0 :: id') qw hid hidw hqw hqww
      (regexTest_of_core "https://youtu.be/" c0 (id' ++ qw) (by decide) hc0)]
    rfl
  · rcases hbr with rfl | rfl
    · show (extractVideoIdL ("https://".data ++ ("www.youtube.com".data ++ ('/' ::
          ("shorts".data ++ '/' :: ((c0 :: id') ++ qw)))))).map String.mk =
        Except.ok (String.mk (c0 :: id'))
      rw [extractVideoIdL_shorts "www.youtube.com".data (c0 :: id') qw (by decide) (by decide)
        (by decide) (by decide) (Or.inl rfl) hid hidw hqw hqww
        (regexTest_of_core "https://www.youtube.com/shorts/" c0 (id' ++ qw) (by decide) hc0)]
      rfl
    · show (extractVideoIdL ("https://".data ++ ("youtube.com".data ++ ('/' ::
          ("shorts".data ++ '/' :: ((c0 :: id') ++ qw)))))).map String.mk =
        Except.ok (String.mk (c0 :: id'))
      rw [extractVideoIdL_shorts "youtube.com".data (c0 :: id') qw (by decide) (by decide)
        (by decide) (by decide) (Or.inr rfl) hid hidw hqw hqww
        (regexTest_of_core "https://youtube.com/shorts/" c0 (id' ++ qw) (by decide) hc0)]
      rfl

/-- C4 witness: the three shapes at concrete URLs (the watch instance
carries an extra `t=60` parameter, which is ignored) and a channel URL,
which the regex refuses. -/
theorem extractVideoId_shapes_witness :
    extractVideoId "https://youtube.com/watch?v=abc123&t=60" = .ok "abc123" ∧
    extractVideoId "https://youtu.be/abc123?t=9" = .ok "abc123" ∧
    extractVideoId "https://youtube.com/shorts/abc123?t=9" = .ok "abc123" ∧
    extractVideoId "https://youtube.com/channel/UC123" =
      .error (.validation invalidUrlMessage) := by
  have h := extractVideoId_shapes "youtube.com".data "abc123".data "&t=60".data "?t=9".data
    "https://youtube.com/channel/UC123" (Or.inr rfl) (by decide) (by decide)
    (Or.inr ⟨"t=60".data, rfl⟩) (by decide) (Or.inr ⟨"t=9".data, rfl⟩) (by decide) (by decide)
  exact ⟨h.1, h.2.1, h.2.2.1, h.2.2.2⟩

/-- C4 counterexample: `https://www.youtu.be/abc123` is accepted by the
URL regex (its optional `www.` group also applies to the `youtu.be`
host), yet `extractVideoId` matches none of its hostname branches and
fails with the generic `Cannot extract video ID` error — it returns
neither the id segment nor the `ValidationError` the claim promises for
every non-shape input. -/
theorem extractVideoId_www_short_link_gap :
    youtubeUrlRegexTest (jsTrimL "https://www.youtu.be/abc123".data) = true ∧
    extractVideoId "https://www.youtu.be/abc123" =
      .error (.cannotExtract "Cannot extract video ID from: https://www.youtu.be/abc123") :=
  ⟨by decide, rfl⟩

/-- C5 counterexample: `https://youtu.be/ab/c` passes the URL regex (the
regex only requires a `[\w-]` run to start the id, it is not anchored at
the end), and the resolver returns the id `"ab/c"`, which contains `/`
and so is not limited to `[A-Za-z0-9_-]` and not filesystem-path-safe. -/
theorem extractVideoId_unsafe_id :
    extractVideoId "https://youtu.be/ab/c" = .ok "ab/c" ∧
    ("ab/c".data.all wordDashChar) = false :=
  ⟨rfl, by decide⟩

/-- C5 (amended): the extracted id is indeed used verbatim, with no
further decoding or sanitisation, in the output filename
`{videoId}_{time_seconds}s.jpg` — both in the `filePath` of every
returned Screenshot and in every file write the run performs — but the
resolver does not guarantee the id is limited to `[A-Za-z0-9_-]`. -/
theorem videoId_used_verbatim {pe : ProbeEnv} {s s1 : ExtractorState} {n : Nat}
    (envOut : Option String) (tempDir : String)
    (frame : TimestampCandidate → Except String String) (url : String)
    (ts : List TimestampCandidate) (opts : ExtractOptions) {vid : String}
    {l : List Screenshot}
    (hcd : checkDependencies pe s = (none, s1, n))
    (hurl : extractVideoId url = .ok vid)
    (hok : (extractScreenshotsM pe envOut tempDir frame s url ts opts).result = .ok l) :
    (∀ sh ∈ l, ∀ p, sh.filePath = some p →
      p = joinPath ((jsOrStr opts.outputDir envOut).getD tempDir)
        (vid ++ "_" ++ toString sh.timestamp_seconds ++ "s.jpg")) ∧
    (∀ p, FsOp.writeFile p ∈ (extractScreenshotsM pe envOut tempDir frame s url ts opts).ops →
      ∃ c ∈ ts, p = joinPath ((jsOrStr opts.outputDir envOut).getD tempDir)
        (vid ++ "_" ++ toString c.time_seconds ++ "s.jpg")) := by
  have hl := extractScreenshotsM_ok_inv envOut tempDir frame url ts opts hcd hurl hok
  have hops := extractScreenshotsM_ops envOut tempDir frame url ts opts hcd hurl
  constructor
  · intro sh hsh p hfp
    rw [hl, batchLoop_shots] at hsh
    obtain ⟨c, hcm, rfl⟩ := List.mem_map.mp hsh
    rcases huD : jsOrStr opts.outputDir envOut with _ | d
    · rw [huD] at hfp
      exact Option.noConfusion hfp
    · rw [huD] at hfp
      exact (Option.some.inj hfp).symm
  · intro p hp
    rw [hops] at hp
    rcases List.mem_append.mp hp with h1 | h2
    · rcases List.mem_append.mp h1 with h3 | h4
      · simp at h3
      · obtain ⟨c, hcm, hcp⟩ := batchLoop_writes_shape vid (jsOrStr opts.outputDir envOut)
          ((jsOrStr opts.outputDir envOut).getD tempDir) frame h4
        exact ⟨c, hcm, hcp⟩
    · rcases huD : jsOrStr opts.outputDir envOut with _ | d
      · rw [huD] at h2
        simp at h2
      · rw [huD] at h2
        simp at h2

/-- C5 witness: with `outputDir = "/keep"` and id `vid05`, the returned
Screenshot's filePath is exactly the verbatim
`/keep/vid05_7s.jpg`. -/
theorem videoId_used_verbatim_witness :
    "/keep/vid05_7s.jpg" =
      joinPath ((jsOrStr (some "/keep") none).getD "/tmp/yt-w5")
        ("vid05" ++ "_" ++ toString (7 : Nat) ++ "s.jpg") :=
  (videoId_used_verbatim none "/tmp/yt-w5" (fun _ => Except.ok "QQ==")
    "https://youtu.be/vid05" [⟨7, "0:07", "x"⟩] ⟨some "/keep", none, none⟩
    (by decide : checkDependencies (⟨some "/bin/a", some "/bin/b"⟩ : ProbeEnv)
      (⟨none, none⟩ : ExtractorState) =
      (none, (⟨some "/bin/a", some "/bin/b"⟩ : ExtractorState), 2))
    (rfl : extractVideoId "https://youtu.be/vid05" = Except.ok "vid05")
    (rfl : (extractScreenshotsM ⟨some "/bin/a", some "/bin/b"⟩ none "/tmp/yt-w5"
      (fun _ => Except.ok "QQ==") ⟨none, none⟩ "https://youtu.be/vid05"
      [⟨7, "0:07", "x"⟩] ⟨some "/keep", none, none⟩).result =
      Except.ok [⟨7, "0:07", "x", "QQ==", "image/jpeg", some "/keep/vid05_7s.jpg"⟩])).1
    ⟨7, "0:07", "x", "QQ==", "image/jpeg", some "/keep/vid05_7s.jpg"⟩
    (List.mem_singleton.mpr rfl) "/keep/vid05_7s.jpg" rfl

/-- C6: a returned Screenshot carries a persisted `filePath` exactly when
a durable output directory (the `outputDir` option or the
`SCREENSHOT_OUTPUT_DIR` environment default) was in effect; in the
ephemeral case no `filePath` is set on any Screenshot, each successfully
written frame file is unlinked, and replaying the run's filesystem log
leaves no files behind. -/
theorem persisted_path_iff_durable {pe : ProbeEnv} {s s1 : ExtractorState} {n : Nat}
    (envOut : Option String) (tempDir : String)
    (frame : TimestampCandidate → Except String String) (url : String)
    (ts : List TimestampCandidate) (opts : ExtractOptions) {vid : String}
    {l : List Screenshot}
    (hcd : checkDependencies pe s = (none, s1, n))
    (hurl : extractVideoId url = .ok vid)
    (hok : (extractScreenshotsM pe envOut tempDir frame s url ts opts).result = .ok l) :
    (∀ sh ∈ l, sh.filePath.isSome = (jsOrStr opts.outputDir envOut).isSome) ∧
    (jsOrStr opts.outputDir envOut = none →
      (∀ sh ∈ l, sh.filePath = none) ∧
      (∀ c ∈ ts, frameOk frame c = true →
        FsOp.unlink (joinPath tempDir (shotFileName vid c.time_seconds)) ∈
          (extractScreenshotsM pe envOut tempDir frame s url ts opts).ops) ∧
      (replayOps (extractScreenshotsM pe envOut tempDir frame s url ts opts).ops).files
        = []) := by
  have hl := extractScreenshotsM_ok_inv envOut tempDir frame url ts opts hcd hurl hok
  have hops := extractScreenshotsM_ops envOut tempDir frame url ts opts hcd hurl
  constructor
  · intro sh hsh
    rw [hl, batchLoop_shots] at hsh
    obtain ⟨c, hcm, rfl⟩ := List.mem_map.mp hsh
    exact shotOf_filePath_isSome vid _ _ frame c
  · intro h0
    rw [h0] at hops hl
    refine ⟨?_, ?_, ?_⟩
    · intro sh hsh
      rw [hl, batchLoop_shots] at hsh
      obtain ⟨c, hcm, rfl⟩ := List.mem_map.mp hsh
      rfl
    · intro c hc hcok
      rw [hops]
      show FsOp.unlink (joinPath tempDir (shotFileName vid c.time_seconds)) ∈
        [FsOp.mkdtemp tempDir, FsOp.mkdirp tempDir] ++
          (batchLoop vid none tempDir frame ts).2.2 ++ [FsOp.rmrf tempDir]
      exact List.mem_append_left _
        (List.mem_append_right _ (batchLoop_unlink_mem vid tempDir frame hc hcok))
    · rw [hops]
      show (replayOps (([FsOp.mkdtemp tempDir, FsOp.mkdirp tempDir] ++
          (batchLoop vid none tempDir frame ts).2.2) ++ [FsOp.rmrf tempDir])).files = []
      rw [replayOps_rmrf_last, List.filter_eq_nil_iff]
      intro p hp
      rcases replay_files_written _ ({ dirs := [], files := [] } : FsState) p hp with h1 | h2
      · cases h1
      · rcases List.mem_append.mp h2 with h3 | h4
        · simp at h3
        · obtain ⟨c, hcm, hcp⟩ := batchLoop_writes_shape vid none tempDir frame h4
          simp only [hcp, underDir_joinPath]
          decide

/-- C6 witness: a run with no output directory at all returns a
Screenshot with no filePath and leaves no files in the replayed
filesystem state. -/
theorem persisted_path_iff_durable_witness :
    (replayOps (extractScreenshotsM ⟨some "/bin/a", some "/bin/b"⟩ none "/tmp/yt-w6"
      (fun _ => Except.ok "enc") ⟨none, none⟩ "https://youtu.be/vid06"
      [⟨4, "0:04", "d"⟩] ⟨none, none, none⟩).ops).files = [] ∧
    (∀ sh ∈ ([⟨4, "0:04", "d", "enc", "image/jpeg", none⟩] : List Screenshot),
      sh.filePath.isSome = (jsOrStr none none).isSome) := by
  have h := persisted_path_iff_durable none "/tmp/yt-w6" (fun _ => Except.ok "enc")
    "https://youtu.be/vid06" [⟨4, "0:04", "d"⟩] ⟨none, none, none⟩
    (by decide : checkDependencies (⟨some "/bin/a", some "/bin/b"⟩ : ProbeEnv)
      (⟨none, none⟩ : ExtractorState) =
      (none, (⟨some "/bin/a", some "/bin/b"⟩ : ExtractorState), 2))
    (rfl : extractVideoId "https://youtu.be/vid06" = Except.ok "vid06")
    (rfl : (extractScreenshotsM ⟨some "/bin/a", some "/bin/b"⟩ none "/tmp/yt-w6"
      (fun _ => Except.ok "enc") ⟨none, none⟩ "https://youtu.be/vid06"
      [⟨4, "0:04", "d"⟩] ⟨none, none, none⟩).result =
      Except.ok [⟨4, "0:04", "d", "enc", "image/jpeg", none⟩])
  exact ⟨(h.2 rfl).2.2, h.1⟩

end YT
